import Mathlib

/-!
A shallow embedding of the configuration-reconciliation core of the
`palantir-opencode-plugin` repository (`src/palantir-mcp/opencode-config.ts`
and the setup driver), together with proofs of the specification claims
about it.

JSON documents are modelled as an ordered key-value tree: JavaScript objects
are insertion-ordered association lists, `obj[k] = v` updates the value in
place when the key exists and appends otherwise, and `delete obj[k]` removes
the key.  `JSON.stringify(data, null, 2)` serializes fields in that order,
so structural equality of the trees gives byte equality of the output.
-/

inductive JValue where
  | vNull
  | vBool (b : Bool)
  | vNum (n : Int)
  | vStr (s : String)
  | vArr (elems : List JValue)
  | vObj (fields : List (String × JValue))

abbrev Obj := List (String × JValue)

/-- First-match lookup in an ordered object (JS property access). -/
def olookup : Obj → String → Option JValue
  | [], _ => none
  | (k', v) :: t, k => if k' = k then some v else olookup t k

/-- JS `obj[k] = v`: replace in place when present, append otherwise. -/
def oset : Obj → String → JValue → Obj
  | [], k, v => [(k, v)]
  | (k', v') :: t, k, v => if k' = k then (k, v) :: t else (k', v') :: oset t k v

/-- JS `delete obj[k]`. -/
def odelete (o : Obj) (k : String) : Obj :=
  o.filter (fun kv => kv.1 ≠ k)

/-- The coercion used throughout the source: expect an object at a key,
treating anything else (absent, or a non-object value) as empty. -/
def objAt (o : Obj) (k : String) : Obj :=
  match olookup o k with
  | some (JValue.vObj fields) => fields
  | _ => []

theorem olookup_oset_self (o : Obj) (k : String) (v : JValue) :
    olookup (oset o k v) k = some v := by
  induction o with
  | nil => simp [oset, olookup]
  | cons hd t ih =>
    by_cases h : hd.1 = k <;> simp [oset, olookup, h, ih]

theorem olookup_oset_ne (o : Obj) (k k' : String) (v : JValue) (h : k' ≠ k) :
    olookup (oset o k v) k' = olookup o k' := by
  have h2 : ¬ (k = k') := fun hh => h hh.symm
  induction o with
  | nil => simp [oset, olookup, h2]
  | cons hd t ih =>
    by_cases hk : hd.1 = k
    · cases hd with
      | mk k0 v0 =>
        simp only at hk
        subst hk
        simp [oset, olookup, h2]
    · by_cases hk' : hd.1 = k' <;> simp [oset, olookup, hk, hk', h, ih]

theorem oset_self (o : Obj) (k : String) (v : JValue) (h : olookup o k = some v) :
    oset o k v = o := by
  induction o with
  | nil => simp [olookup] at h
  | cons hd t ih =>
    by_cases hk : hd.1 = k
    · cases hd with
      | mk k0 v0 =>
        simp only at hk
        subst hk
        simp [olookup] at h
        simp [oset, h]
    · simp [olookup, hk] at h
      simp [oset, hk, ih h]

theorem olookup_odelete_self (o : Obj) (k : String) :
    olookup (odelete o k) k = none := by
  induction o with
  | nil => simp [odelete, olookup]
  | cons hd t ih =>
    by_cases hk : hd.1 = k
    · simpa [odelete, List.filter, hk] using ih
    · have : odelete (hd :: t) k = hd :: odelete t k := by
        simp [odelete, List.filter, hk]
      rw [this]
      simp [olookup, hk, ih]

theorem olookup_odelete_ne (o : Obj) (k k' : String) (h : k' ≠ k) :
    olookup (odelete o k) k' = olookup o k' := by
  induction o with
  | nil => simp [odelete, olookup]
  | cons hd t ih =>
    by_cases hk : hd.1 = k
    · have hk' : ¬ (hd.1 = k') := by rw [hk]; exact fun hh => h hh.symm
      have : odelete (hd :: t) k = odelete t k := by
        simp [odelete, List.filter, hk]
      rw [this, ih]
      simp [olookup, hk']
    · have : odelete (hd :: t) k = hd :: odelete t k := by
        simp [odelete, List.filter, hk]
      rw [this]
      by_cases hk' : hd.1 = k' <;> simp [olookup, hk', ih]

theorem odelete_of_not_mem (o : Obj) (k : String) (h : olookup o k = none) :
    odelete o k = o := by
  induction o with
  | nil => rfl
  | cons hd t ih =>
    by_cases hk : hd.1 = k
    · simp [olookup, hk] at h
    · simp [olookup, hk] at h
      have : odelete (hd :: t) k = hd :: odelete t k := by
        simp [odelete, List.filter, hk]
      rw [this, ih h]

/-! ### Character-list string primitives

`stripGeneratedNote` and friends use JS `indexOf`, `slice`, `trim`,
`trimEnd` and one regex replace; they are modelled on `List Char` and
wrapped into `String` at the boundary. -/

/-- JS whitespace test (restricted to the ASCII whitespace characters). -/
def isWS (c : Char) : Bool :=
  (c == ' ') || (c == '\t') || (c == '\n') || (c == '\r') || (c == '\x0b') || (c == '\x0c')

/-- JS `String.prototype.trimEnd`. -/
def trimEndL (l : List Char) : List Char :=
  (l.reverse.dropWhile isWS).reverse

/-- JS `String.prototype.trim`. -/
def trimL (l : List Char) : List Char :=
  trimEndL (l.dropWhile isWS)

/-- Split a list at the first occurrence of `pat` (JS `indexOf` + `slice`):
returns the part strictly before the occurrence and the suffix starting at it. -/
def splitFirst (pat : List Char) : List Char → Option (List Char × List Char)
  | [] => if pat.isPrefixOf ([] : List Char) then some ([], []) else none
  | c :: t =>
    if pat.isPrefixOf (c :: t) then some ([], c :: t)
    else (splitFirst pat t).map (fun p => (c :: p.1, p.2))

/-- JS `String.prototype.includes`. -/
def containsSubL (pat l : List Char) : Bool :=
  (splitFirst pat l).isSome

/-- `before.trimEnd().replace(sepRegex, '').trimEnd()` from `stripGeneratedNote`:
drop trailing whitespace, then one trailing `|` or `-` separator together with
the whitespace run before it. -/
def dropSepEnd : List Char → List Char
  | c :: rest => if c == '|' || c == '-' then rest.dropWhile isWS else c :: rest
  | [] => []

def stripSepEnd (l : List Char) : List Char :=
  trimEndL (dropSepEnd (l.reverse.dropWhile isWS)).reverse

/-! ### Constants of `opencode-config.ts` -/

def tkPfx : String := "palantir-mcp_"

def toolKey (toolName : String) : String := tkPfx ++ toolName

def genNotePfx : String := "Generated by opencode-palantir /setup-palantir-mcp."

def buildGeneratedNote (profile : String) : String :=
  genNotePfx ++ " Profile: " ++ profile ++ ". Edit palantir-mcp_* tool flags below to reject tools."

/-- `stripGeneratedNote` from the source, over lists of characters. -/
def stripGeneratedNoteL (l : List Char) : List Char :=
  match splitFirst genNotePfx.data l with
  | none => trimL l
  | some (before, _) => stripSepEnd before

def stripGeneratedNote (s : String) : String :=
  String.mk (stripGeneratedNoteL s.data)

def containsSub (s pat : String) : Bool := containsSubL pat.data s.data

def trimS (s : String) : String := String.mk (trimL s.data)

inductive PatchMode where
  | setup
  | rescan
  deriving DecidableEq

def defaultDescription (agentName : String) : String :=
  if agentName = "foundry-librarian" then
    "Foundry exploration and context gathering (parallel-friendly)"
  else
    "Foundry execution agent (uses only enabled palantir-mcp tools)"

def librarianPrompt : String :=
  "You are the Foundry librarian.\n\n- Focus on exploration and context gathering.\n- Split independent exploration tasks and run them in parallel when possible.\n- Return compact summaries and cite the tool calls you ran.\n- Avoid dumping massive schemas unless explicitly asked."

def foundryPrompt : String :=
  "You are the Foundry execution agent.\n\n- Use only enabled palantir-mcp tools.\n- Prefer working from summaries produced by @foundry-librarian.\n- Keep operations focused and deterministic."

def defaultPrompt (agentName : String) : String :=
  if agentName = "foundry-librarian" then librarianPrompt else foundryPrompt

def tokenPlaceholder : String := "\x7benv:FOUNDRY_TOKEN\x7d"

/-- The server descriptor created by `ensureMcpServer`. -/
def serverDescriptor (foundryApiUrl : String) : JValue :=
  JValue.vObj
    [("type", JValue.vStr "local"),
     ("command", JValue.vArr
       [JValue.vStr "npx", JValue.vStr "-y", JValue.vStr "palantir-mcp",
        JValue.vStr "--foundry-api-url", JValue.vStr foundryApiUrl]),
     ("environment", JValue.vObj [("FOUNDRY_TOKEN", JValue.vStr tokenPlaceholder)])]

/-! ### The reconciler -/

/-- `if (data['$schema'] === undefined) data['$schema'] = ...`. -/
def schemaStep (d : Obj) : Obj :=
  if (olookup d "$schema").isNone then
    oset d "$schema" (JValue.vStr "https://opencode.ai/config.json")
  else d

def removeUnsupportedPalantirMeta (d : Obj) : Obj :=
  odelete d "palantir_mcp"

/-- `ensureGlobalDeny`: `tools['palantir-mcp_*'] = false`, unconditionally. -/
def ensureGlobalDeny (d : Obj) : Obj :=
  let tools := objAt d "tools"
  oset d "tools" (JValue.vObj (oset tools "palantir-mcp_*" (JValue.vBool false)))

/-- `ensureMcpServer`: create the managed entry when absent, else leave the
`mcp` object untouched; the flag reports whether it was created. -/
def ensureMcpServer (d : Obj) (foundryApiUrl : String) : Obj × Bool :=
  let mcp := objAt d "mcp"
  if (olookup mcp "palantir-mcp").isSome then
    (oset d "mcp" (JValue.vObj mcp), false)
  else
    (oset d "mcp" (JValue.vObj (oset mcp "palantir-mcp" (serverDescriptor foundryApiUrl))), true)

/-- `typeof agent[k] !== 'string'` guard: fill a string field only when the
stored value is not a string. -/
def fillStrField (ag : Obj) (k : String) (d : String) : Obj :=
  match olookup ag k with
  | some (JValue.vStr _) => ag
  | _ => oset ag k (JValue.vStr d)

/-- `typeof agent[k] !== 'boolean'` guard. -/
def fillBoolField (ag : Obj) (k : String) (d : Bool) : Obj :=
  match olookup ag k with
  | some (JValue.vBool _) => ag
  | _ => oset ag k (JValue.vBool d)

/-- `ensureAgentDefaults`: fill `mode`, `hidden`, `description`, `prompt`
only when the stored value does not already have the expected type. -/
def ensureAgentDefaults (agent : Obj) (agentName : String) : Obj :=
  let a1 := fillStrField agent "mode" "subagent"
  let a2 := fillBoolField a1 "hidden" false
  let a3 := fillStrField a2 "description" (defaultDescription agentName)
  fillStrField a3 "prompt" (defaultPrompt agentName)

/-- The annotated description written by `annotateAgentDescription`. -/
def joinNote (base : String) (profile : String) : String :=
  if base = "" then buildGeneratedNote profile
  else base ++ " | " ++ buildGeneratedNote profile

def shouldAnnotateB (description : String) (agentName : String) (mode : PatchMode) : Bool :=
  (mode = PatchMode.setup : Bool)
    || containsSub description genNotePfx
    || (trimS description == defaultDescription agentName)

def annotateAgentDescription (agent : Obj) (agentName : String) (profile : String)
    (mode : PatchMode) : Obj :=
  let description :=
    match olookup agent "description" with
    | some (JValue.vStr s) => s
    | _ => defaultDescription agentName
  if shouldAnnotateB description agentName mode then
    oset agent "description" (JValue.vStr (joinNote (stripGeneratedNote description) profile))
  else agent

/-- `ensureDocsToolDefaults`: set the two doc-browsing toggles only where absent. -/
def ensureDocsToolDefaults (tools : Obj) (agentName : String) : Obj :=
  let v := (agentName = "foundry-librarian" : Bool)
  let tools :=
    if (olookup tools "get_doc_page").isNone then oset tools "get_doc_page" (JValue.vBool v)
    else tools
  if (olookup tools "list_all_docs").isNone then oset tools "list_all_docs" (JValue.vBool v)
  else tools

def hasPalantirToggles (tools : Obj) : Bool :=
  tools.any (fun kv => tkPfx.data.isPrefixOf kv.1.data)

def countEnabledPalantirToggles (tools : Obj) (toolKeys : List String) : Nat :=
  toolKeys.countP (fun k =>
    match olookup tools k with
    | some (JValue.vBool true) => true
    | _ => false)

/-- `Array.from(new Set(toolNames))`: deduplicate keeping first occurrences. -/
def dedupKeepFirstAux (seen : List String) : List String → List String
  | [] => []
  | a :: l => if a ∈ seen then dedupKeepFirstAux seen l else a :: dedupKeepFirstAux (a :: seen) l

def dedupKeepFirst (l : List String) : List String := dedupKeepFirstAux [] l

/-- Lexicographic comparison of character lists by code point. -/
def strLeb : List Char → List Char → Bool
  | [], _ => true
  | _ :: _, [] => false
  | a :: as, b :: bs =>
    if a.toNat < b.toNat then true
    else if b.toNat < a.toNat then false
    else strLeb as bs

/-- The comparator `(a, b) => a.localeCompare(b)`, with the locale-sensitive
comparison modelled as the lexicographic code-point order. -/
def strLe (a b : String) : Bool := strLeb a.data b.data

/-- `.sort(...)` on the deduplicated (hence duplicate-free) names: any
comparison sort computes the same list there, so an insertion sort keeps the
definition structurally recursive. -/
def sortedToolNames (toolNames : List String) : List String :=
  List.insertionSort (fun a b : String => strLe a b = true) (dedupKeepFirst toolNames)

/-- One iteration of the `applyToolToggles` loop. -/
def toggleStep (allow : List String) (mode : PatchMode) (preserve : Bool)
    (tools : Obj) (name : String) : Obj :=
  match mode with
  | PatchMode.rescan =>
    if (olookup tools (toolKey name)).isSome then tools
    else oset tools (toolKey name) (JValue.vBool (allow.contains name))
  | PatchMode.setup =>
    if preserve && (olookup tools (toolKey name)).isSome then tools
    else oset tools (toolKey name) (JValue.vBool (allow.contains name))

def applyToolToggles (tools : Obj) (toolNames : List String) (allow : List String)
    (mode : PatchMode) : Obj × Bool :=
  let toolNamesSorted := sortedToolNames toolNames
  let preserve := hasPalantirToggles tools
  (toolNamesSorted.foldl (toggleStep allow mode preserve) tools, preserve)

structure Summary where
  profile : String
  toolCount : Nat
  librarianEnabled : Nat
  foundryEnabled : Nat
  preservedExistingToggles : Bool

structure PatchResult where
  data : Obj
  warnings : List String
  summary : Summary

/-- The fully processed agent object produced by the per-agent portion of
`patchConfigForSetup`/`patchConfigForRescan` (`ensureAgentBase`,
`ensureAgentDefaults`, `annotateAgentDescription`, `ensureObject(agent,
'tools')`, `ensureDocsToolDefaults`, `applyToolToggles`). -/
def patchedAgent (d : Obj) (agentName profile : String) (mode : PatchMode)
    (toolNames allow : List String) : Obj :=
  let agent := objAt (objAt d "agent") agentName
  let agent := ensureAgentDefaults agent agentName
  let agent := annotateAgentDescription agent agentName profile mode
  let tools := ensureDocsToolDefaults (objAt agent "tools") agentName
  oset agent "tools" (JValue.vObj (applyToolToggles tools toolNames allow mode).1)

/-- The final tools map of the processed agent. -/
def patchedTools (d : Obj) (agentName profile : String) (mode : PatchMode)
    (toolNames allow : List String) : Obj :=
  let agent := objAt (objAt d "agent") agentName
  let agent := ensureAgentDefaults agent agentName
  let agent := annotateAgentDescription agent agentName profile mode
  let tools := ensureDocsToolDefaults (objAt agent "tools") agentName
  (applyToolToggles tools toolNames allow mode).1

/-- The preserved-existing-toggles flag of the processed agent. -/
def patchedPreserved (d : Obj) (agentName profile : String) (mode : PatchMode)
    (toolNames allow : List String) : Bool :=
  let agent := objAt (objAt d "agent") agentName
  let agent := ensureAgentDefaults agent agentName
  let agent := annotateAgentDescription agent agentName profile mode
  let tools := ensureDocsToolDefaults (objAt agent "tools") agentName
  (applyToolToggles tools toolNames allow mode).2

def patchAgentFull (d : Obj) (agentName profile : String) (mode : PatchMode)
    (toolNames allow : List String) : Obj × Obj × Bool :=
  (oset d "agent" (JValue.vObj (oset (objAt d "agent") agentName
      (JValue.vObj (patchedAgent d agentName profile mode toolNames allow)))),
   patchedTools d agentName profile mode toolNames allow,
   patchedPreserved d agentName profile mode toolNames allow)

def setupPreservedWarning : String :=
  "Existing palantir-mcp_* tool toggles were preserved; delete them under the Foundry agents to fully regenerate."

def rescanPreservedWarning : String :=
  "Existing palantir-mcp_* tool toggles were preserved (not overwritten). Delete them under the Foundry agents to fully regenerate."

def patchConfigForSetup (input : Obj) (foundryApiUrl : String) (toolNames : List String)
    (profile : String) (librarianAllow foundryAllow : List String) : PatchResult :=
  let d := schemaStep input
  let d := removeUnsupportedPalantirMeta d
  let d := ensureGlobalDeny d
  let d := (ensureMcpServer d foundryApiUrl).1
  let lib := patchAgentFull d "foundry-librarian" profile PatchMode.setup toolNames librarianAllow
  let fdy := patchAgentFull lib.1 "foundry" profile PatchMode.setup toolNames foundryAllow
  let preserved := lib.2.2 || fdy.2.2
  let warnings := if preserved then [setupPreservedWarning] else []
  let toolNamesSorted := sortedToolNames toolNames
  let toolKeys := toolNamesSorted.map toolKey
  ⟨fdy.1, warnings,
   ⟨profile, toolNamesSorted.length,
    countEnabledPalantirToggles lib.2.1 toolKeys,
    countEnabledPalantirToggles fdy.2.1 toolKeys,
    preserved⟩⟩

def patchConfigForRescan (input : Obj) (toolNames : List String)
    (profile : String) (librarianAllow foundryAllow : List String) : PatchResult :=
  let d := schemaStep input
  let d := removeUnsupportedPalantirMeta d
  let d := ensureGlobalDeny d
  let lib := patchAgentFull d "foundry-librarian" profile PatchMode.rescan toolNames librarianAllow
  let fdy := patchAgentFull lib.1 "foundry" profile PatchMode.rescan toolNames foundryAllow
  let preserved := lib.2.2 || fdy.2.2
  let warnings := if preserved then [rescanPreservedWarning] else []
  let toolNamesSorted := sortedToolNames toolNames
  let toolKeys := toolNamesSorted.map toolKey
  ⟨fdy.1, warnings,
   ⟨profile, toolNamesSorted.length,
    countEnabledPalantirToggles lib.2.1 toolKeys,
    countEnabledPalantirToggles fdy.2.1 toolKeys,
    preserved⟩⟩

/-! ### Serialization (`JSON.stringify(data, null, 2)` + trailing newline) -/

def hexDigit (n : Nat) : Char :=
  if n < 10 then Char.ofNat (48 + n) else Char.ofNat (87 + n)

def escChar (c : Char) : List Char :=
  if c = '"' then ['\\', '"']
  else if c = '\\' then ['\\', '\\']
  else if c = '\n' then ['\\', 'n']
  else if c = '\r' then ['\\', 'r']
  else if c = '\t' then ['\\', 't']
  else if c = '\x08' then ['\\', 'b']
  else if c = '\x0c' then ['\\', 'f']
  else if c.toNat < 32 then
    ['\\', 'u', hexDigit (c.toNat / 4096 % 16), hexDigit (c.toNat / 256 % 16),
     hexDigit (c.toNat / 16 % 16), hexDigit (c.toNat % 16)]
  else [c]

def jsonQuote (s : String) : String :=
  String.mk ('"' :: s.data.foldr (fun c acc => escChar c ++ acc) ['"'])

def spaces : Nat → String
  | 0 => ""
  | n + 1 => " " ++ spaces n

mutual

def stringifyVal (ind : Nat) : JValue → String
  | JValue.vNull => "null"
  | JValue.vBool b => cond b "true" "false"
  | JValue.vNum n => toString n
  | JValue.vStr s => jsonQuote s
  | JValue.vArr [] => "[]"
  | JValue.vArr (x :: xs) =>
    "[\n" ++ stringifyItems (ind + 2) (x :: xs) ++ "\n" ++ spaces ind ++ "]"
  | JValue.vObj [] => "\x7b\x7d"
  | JValue.vObj (f :: fs) =>
    "\x7b\n" ++ stringifyMembers (ind + 2) (f :: fs) ++ "\n" ++ spaces ind ++ "\x7d"

def stringifyItems (ind : Nat) : List JValue → String
  | [] => ""
  | [x] => spaces ind ++ stringifyVal ind x
  | x :: y :: xs => spaces ind ++ stringifyVal ind x ++ ",\n" ++ stringifyItems ind (y :: xs)

def stringifyMembers (ind : Nat) : List (String × JValue) → String
  | [] => ""
  | [(k, v)] => spaces ind ++ jsonQuote k ++ ": " ++ stringifyVal ind v
  | (k, v) :: f :: fs =>
    spaces ind ++ jsonQuote k ++ ": " ++ stringifyVal ind v ++ ",\n" ++ stringifyMembers ind (f :: fs)

end

def stringifyJsonc (data : Obj) : String :=
  stringifyVal 0 (JValue.vObj data) ++ "\n"

/-! ### Legacy merge (`deepMergePreferTarget`, `mergeLegacyIntoJsonc`) -/

/-- The body of `deepMergePreferTarget` for two objects: the spread
`{ ...source, ...target }` lays out source keys first (in source order) and
appends target-only keys, and the loop over the source entries then picks,
per source key: the source value when the target lacks the key, the recursive
merge when both values are objects, and the target value otherwise. -/
def mergeFields (t : Obj) : Obj → Obj
  | [] => []
  | (k, sv) :: rest =>
    (k,
      match olookup t k with
      | none => sv
      | some tv =>
        match tv, sv with
        | JValue.vObj to2, JValue.vObj so2 =>
          JValue.vObj (mergeFields to2 so2 ++ to2.filter (fun kv => (olookup so2 kv.1).isNone))
        | _, _ => tv) :: mergeFields t rest
termination_by l => sizeOf l
decreasing_by
  all_goals (simp <;> omega)

def mergeObjs (t s : Obj) : Obj :=
  mergeFields t s ++ t.filter (fun kv => (olookup s kv.1).isNone)

/-- `deepMergePreferTarget` (the `target ?? source` line models the JS
null-coalescing on a present, non-`undefined` target). -/
def deepMergePreferTarget (target source : JValue) : JValue :=
  match target, source with
  | JValue.vObj t, JValue.vObj s => JValue.vObj (mergeObjs t s)
  | JValue.vNull, s => s
  | t, _ => t

/-- `mergeLegacyIntoJsonc`: coerce both documents to objects and merge,
preferring the current-format (`jsonc`) side. -/
def mergeLegacyIntoJsonc (legacyData : JValue) (jsoncData : JValue) : Obj :=
  let base : Obj := match jsoncData with | JValue.vObj o => o | _ => []
  let legacy : Obj := match legacyData with | JValue.vObj o => o | _ => []
  mergeObjs base legacy

/-! ### `extractFoundryApiUrlFromMcpConfig` and the setup driver slice -/

/-- `args[idx + 1]` after `args.indexOf('--foundry-api-url')`, including the
JS falsiness check on the following argument. -/
def argAfterFlag : List String → Option String
  | [] => none
  | a :: rest =>
    if a = "--foundry-api-url" then
      match rest with
      | [] => none
      | b :: _ => if b = "" then none else some b
    else argAfterFlag rest

def extractFoundryApiUrlFromMcpConfig (data : Obj) : Option String :=
  match olookup data "mcp" with
  | some (JValue.vObj mcp) =>
    match olookup mcp "palantir-mcp" with
    | some (JValue.vObj server) =>
      match olookup server "type" with
      | some (JValue.vStr ty) =>
        if ty = "local" then
          match olookup server "command" with
          | some (JValue.vArr command) =>
            argAfterFlag (command.filterMap (fun x =>
              match x with
              | JValue.vStr s => some s
              | _ => none))
          | _ => none
        else none
      | _ => none
    | _ => none
  | _ => none

/-- Result of `normalizeFoundryBaseUrl` on success.  The normalizer itself
lives in `normalize-url.ts`, outside the sources modelled here, so the driver
slice is parametrized over it. -/
structure NormOk where
  url : String
  warnings : List String

def mcpMismatchWarning (existingUrl : String) : String :=
  "mcp.palantir-mcp already exists and points to " ++ existingUrl ++ "; it was left unchanged."

/-- The warning assembly of `setupPalantirMcp` (driver): normalizer warnings,
then reconciler warnings, then the existing-server-points-elsewhere warning
when the already-configured URL normalizes to something other than the
supplied one. -/
def setupSliceWarnings (norm : String → Option NormOk) (merged : Obj) (argNorm : NormOk)
    (patch : PatchResult) : List String :=
  let existingNorm :=
    match extractFoundryApiUrlFromMcpConfig merged with
    | some raw => norm raw
    | none => none
  let warnings := argNorm.warnings ++ patch.warnings
  match existingNorm with
  | some e => if e.url = argNorm.url then warnings else warnings ++ [mcpMismatchWarning e.url]
  | none => warnings

/-- The pure slice of the `setupPalantirMcp` driver after its I/O: the
credential gate (`if (!process.env.FOUNDRY_TOKEN)`), the reconciliation of the
merged document, the serialized text that gets written, and the assembled
warnings.  `none` models the early error return when the credential is absent
or empty; discovery, profile scan and allowlist results enter as arguments. -/
def setupSlice (norm : String → Option NormOk) (token : Option String) (merged : Obj)
    (argNorm : NormOk) (toolNames : List String) (profile : String)
    (librarianAllow foundryAllow : List String) : Option (String × List String) :=
  if token = none ∨ token = some "" then none
  else
    let patch := patchConfigForSetup merged argNorm.url toolNames profile librarianAllow foundryAllow
    some (stringifyJsonc patch.data, setupSliceWarnings norm merged argNorm patch)

/-! ### Lemmas about the toggle loop -/

theorem olookup_oset_cases (o : Obj) (k k' : String) (v : JValue) :
    olookup (oset o k v) k' = if k' = k then some v else olookup o k' := by
  by_cases h : k' = k
  · subst h; simp [olookup_oset_self]
  · simp [h, olookup_oset_ne o k k' v h]

theorem olookup_oset_isSome_mono (o : Obj) (k k0 : String) (v : JValue)
    (h : (olookup o k0).isSome) : (olookup (oset o k v) k0).isSome := by
  rw [olookup_oset_cases]
  by_cases hk : k0 = k <;> simp [hk, h]

theorem toggleStep_rescan_preserve (allow : List String) (p : Bool) (tools : Obj)
    (n : String) (k0 : String) (v : JValue) (h : olookup tools k0 = some v) :
    olookup (toggleStep allow PatchMode.rescan p tools n) k0 = some v := by
  simp only [toggleStep]
  split
  · exact h
  · next hs =>
    rw [olookup_oset_cases]
    by_cases hk : k0 = toolKey n
    · subst hk; rw [h] at hs; simp at hs
    · simp [hk, h]

theorem toggleStep_setup_true_preserve (allow : List String) (tools : Obj)
    (n : String) (k0 : String) (v : JValue) (h : olookup tools k0 = some v) :
    olookup (toggleStep allow PatchMode.setup true tools n) k0 = some v := by
  simp only [toggleStep, Bool.true_and]
  split
  · exact h
  · next hs =>
    rw [olookup_oset_cases]
    by_cases hk : k0 = toolKey n
    · subst hk; rw [h] at hs; simp at hs
    · simp [hk, h]

theorem toggleStep_frame (allow : List String) (mode : PatchMode) (p : Bool) (tools : Obj)
    (n : String) (k0 : String) (h : k0 ≠ toolKey n) :
    olookup (toggleStep allow mode p tools n) k0 = olookup tools k0 := by
  cases mode <;> simp only [toggleStep] <;> split
  · rfl
  · exact olookup_oset_ne tools (toolKey n) k0 _ h
  · rfl
  · exact olookup_oset_ne tools (toolKey n) k0 _ h

theorem toggleStep_isSome_mono (allow : List String) (mode : PatchMode) (p : Bool) (tools : Obj)
    (n : String) (k0 : String) (h : (olookup tools k0).isSome) :
    (olookup (toggleStep allow mode p tools n) k0).isSome := by
  cases mode <;> simp only [toggleStep] <;> split
  · exact h
  · exact olookup_oset_isSome_mono tools (toolKey n) k0 _ h
  · exact h
  · exact olookup_oset_isSome_mono tools (toolKey n) k0 _ h

theorem toggleStep_self_isSome (allow : List String) (mode : PatchMode) (p : Bool) (tools : Obj)
    (n : String) :
    (olookup (toggleStep allow mode p tools n) (toolKey n)).isSome := by
  cases mode <;> simp only [toggleStep]
  · split
    · next hcond =>
      simp at hcond
      simp [hcond.2]
    · simp [olookup_oset_self]
  · split
    · next hcond => exact hcond
    · simp [olookup_oset_self]

theorem foldl_toggle_rescan_preserve (allow : List String) (p : Bool) (ns : List String)
    (tools : Obj) (k0 : String) (v : JValue) (h : olookup tools k0 = some v) :
    olookup (ns.foldl (toggleStep allow PatchMode.rescan p) tools) k0 = some v := by
  induction ns generalizing tools with
  | nil => exact h
  | cons n ns ih =>
    exact ih _ (toggleStep_rescan_preserve allow p tools n k0 v h)

theorem foldl_toggle_setup_true_preserve (allow : List String) (ns : List String)
    (tools : Obj) (k0 : String) (v : JValue) (h : olookup tools k0 = some v) :
    olookup (ns.foldl (toggleStep allow PatchMode.setup true) tools) k0 = some v := by
  induction ns generalizing tools with
  | nil => exact h
  | cons n ns ih =>
    exact ih _ (toggleStep_setup_true_preserve allow tools n k0 v h)

theorem foldl_toggle_frame (allow : List String) (mode : PatchMode) (p : Bool) (ns : List String)
    (tools : Obj) (k0 : String) (h : ∀ n ∈ ns, k0 ≠ toolKey n) :
    olookup (ns.foldl (toggleStep allow mode p) tools) k0 = olookup tools k0 := by
  induction ns generalizing tools with
  | nil => rfl
  | cons n ns ih =>
    rw [List.foldl_cons, ih _ (fun m hm => h m (List.mem_cons_of_mem n hm))]
    exact toggleStep_frame allow mode p tools n k0 (h n (List.mem_cons_self n ns))

theorem foldl_toggle_isSome_mono (allow : List String) (mode : PatchMode) (p : Bool)
    (ns : List String) (tools : Obj) (k0 : String) (h : (olookup tools k0).isSome) :
    (olookup (ns.foldl (toggleStep allow mode p) tools) k0).isSome := by
  induction ns generalizing tools with
  | nil => exact h
  | cons n ns ih =>
    exact ih _ (toggleStep_isSome_mono allow mode p tools n k0 h)

theorem foldl_toggle_present (allow : List String) (mode : PatchMode) (p : Bool)
    (ns : List String) (tools : Obj) (n0 : String) (h : n0 ∈ ns) :
    (olookup (ns.foldl (toggleStep allow mode p) tools) (toolKey n0)).isSome := by
  induction ns generalizing tools with
  | nil => cases h
  | cons n ns ih =>
    rw [List.foldl_cons]
    rcases List.mem_cons.mp h with h1 | h1
    · rw [h1]
      exact foldl_toggle_isSome_mono allow mode p ns _ _
        (toggleStep_self_isSome allow mode p tools n)
    · exact ih _ h1

/-! ### Tool keys, deduplication and sorting -/

theorem toolKey_data (s : String) : (toolKey s).data = tkPfx.data ++ s.data := by
  simp [toolKey, String.data_append]

theorem toolKey_inj (a b : String) (h : toolKey a = toolKey b) : a = b := by
  have hd : (toolKey a).data = (toolKey b).data := congrArg String.data h
  rw [toolKey_data, toolKey_data] at hd
  have hab : a.data = b.data := List.append_cancel_left hd
  cases a; cases b
  exact congrArg String.mk (by simpa using hab)

theorem toolKey_starts (s : String) : tkPfx.data.isPrefixOf (toolKey s).data = true := by
  rw [List.isPrefixOf_iff_prefix, toolKey_data]
  exact List.prefix_append tkPfx.data s.data

theorem hasPalantirToggles_false_lookup_none (tools : Obj) (s : String)
    (h : hasPalantirToggles tools = false) : olookup tools (toolKey s) = none := by
  induction tools with
  | nil => rfl
  | cons hd t ih =>
    simp only [hasPalantirToggles, List.any_cons, Bool.or_eq_false_iff] at h
    obtain ⟨h1, h2⟩ := h
    have hhd : ¬ (hd.1 = toolKey s) := by
      intro he
      have hts := toolKey_starts s
      rw [← he, h1] at hts
      exact Bool.noConfusion hts
    simp [olookup, hhd]
    exact ih h2

theorem hasPalantirToggles_of_lookup_isSome (tools : Obj) (s : String)
    (h : (olookup tools (toolKey s)).isSome) : hasPalantirToggles tools = true := by
  by_cases hp : hasPalantirToggles tools
  · exact hp
  · rw [hasPalantirToggles_false_lookup_none tools s (by simpa using hp)] at h
    simp at h

theorem mem_dedupKeepFirstAux (l : List String) :
    ∀ (seen : List String) (a : String),
      a ∈ dedupKeepFirstAux seen l ↔ (a ∈ l ∧ a ∉ seen) := by
  induction l with
  | nil => intro seen a; simp [dedupKeepFirstAux]
  | cons b l ih =>
    intro seen a
    by_cases hb : b ∈ seen
    · simp only [dedupKeepFirstAux, if_pos hb]
      rw [ih seen a]
      constructor
      · rintro ⟨h1, h2⟩
        exact ⟨List.mem_cons_of_mem b h1, h2⟩
      · rintro ⟨h1, h2⟩
        rcases List.mem_cons.mp h1 with h1 | h1
        · subst h1; exact absurd hb h2
        · exact ⟨h1, h2⟩
    · simp only [dedupKeepFirstAux, if_neg hb]
      rw [List.mem_cons, ih (b :: seen) a]
      constructor
      · rintro (h1 | ⟨h1, h2⟩)
        · subst h1; exact ⟨List.mem_cons_self a l, hb⟩
        · exact ⟨List.mem_cons_of_mem b h1, fun hc => h2 (List.mem_cons_of_mem b hc)⟩
      · rintro ⟨h1, h2⟩
        by_cases hab : a = b
        · exact Or.inl hab
        · rcases List.mem_cons.mp h1 with h1 | h1
          · exact absurd h1 hab
          · exact Or.inr ⟨h1, by simp [hab, h2]⟩

theorem nodup_dedupKeepFirstAux (l : List String) :
    ∀ (seen : List String), (dedupKeepFirstAux seen l).Nodup := by
  induction l with
  | nil => intro seen; simp [dedupKeepFirstAux]
  | cons b l ih =>
    intro seen
    by_cases hb : b ∈ seen
    · simpa [dedupKeepFirstAux, if_pos hb] using ih seen
    · simp only [dedupKeepFirstAux, if_neg hb]
      refine List.nodup_cons.mpr ⟨?_, ih (b :: seen)⟩
      intro hc
      exact absurd (List.mem_cons_self b seen) ((mem_dedupKeepFirstAux l (b :: seen) b).mp hc).2

theorem mem_dedupKeepFirst (l : List String) (a : String) :
    a ∈ dedupKeepFirst l ↔ a ∈ l := by
  rw [dedupKeepFirst, mem_dedupKeepFirstAux]
  simp

theorem nodup_dedupKeepFirst (l : List String) : (dedupKeepFirst l).Nodup :=
  nodup_dedupKeepFirstAux l []

theorem sortedToolNames_perm_dedup (l : List String) :
    (sortedToolNames l).Perm (dedupKeepFirst l) :=
  List.perm_insertionSort _ _

theorem nodup_sortedToolNames (l : List String) : (sortedToolNames l).Nodup :=
  (List.Perm.nodup_iff (sortedToolNames_perm_dedup l)).mpr (nodup_dedupKeepFirst l)

theorem mem_sortedToolNames (l : List String) (a : String) :
    a ∈ sortedToolNames l ↔ a ∈ l := by
  rw [List.Perm.mem_iff (sortedToolNames_perm_dedup l), mem_dedupKeepFirst]

theorem char_eq_of_toNat_eq (a b : Char) (h : a.toNat = b.toNat) : a = b :=
  Char.ext (UInt32.toNat.inj h)

theorem strLeb_total (as : List Char) : ∀ bs, strLeb as bs = true ∨ strLeb bs as = true := by
  induction as with
  | nil => intro bs; exact Or.inl rfl
  | cons a as ih =>
    intro bs
    cases bs with
    | nil => exact Or.inr rfl
    | cons b bs =>
      by_cases h1 : a.toNat < b.toNat
      · left; simp [strLeb, h1]
      · by_cases h2 : b.toNat < a.toNat
        · right; simp [strLeb, h2]
        · rcases ih bs with h | h
          · left; simp [strLeb, h1, h2, h]
          · right; simp [strLeb, h1, h2, h]

theorem strLeb_trans (as : List Char) :
    ∀ bs cs, strLeb as bs = true → strLeb bs cs = true → strLeb as cs = true := by
  induction as with
  | nil => intro bs cs _ _; rfl
  | cons a as ih =>
    intro bs cs hab hbc
    cases bs with
    | nil => simp [strLeb] at hab
    | cons b bs =>
      cases cs with
      | nil => simp [strLeb] at hbc
      | cons c cs =>
        simp only [strLeb] at hab hbc ⊢
        by_cases h1 : a.toNat < b.toNat
        · by_cases h2 : b.toNat < c.toNat
          · rw [if_pos (by omega)]
          · rw [if_neg h2] at hbc
            by_cases h3 : c.toNat < b.toNat
            · rw [if_pos h3] at hbc; cases hbc
            · rw [if_pos (by omega)]
        · rw [if_neg h1] at hab
          by_cases h4 : b.toNat < a.toNat
          · rw [if_pos h4] at hab; cases hab
          · rw [if_neg h4] at hab
            by_cases h2 : b.toNat < c.toNat
            · rw [if_pos (by omega)]
            · rw [if_neg h2] at hbc
              by_cases h3 : c.toNat < b.toNat
              · rw [if_pos h3] at hbc; cases hbc
              · rw [if_neg h3] at hbc
                rw [if_neg (by omega), if_neg (by omega)]
                exact ih bs cs hab hbc

theorem strLeb_antisymm (as : List Char) :
    ∀ bs, strLeb as bs = true → strLeb bs as = true → as = bs := by
  induction as with
  | nil =>
    intro bs _ hba
    cases bs with
    | nil => rfl
    | cons b bs => simp [strLeb] at hba
  | cons a as ih =>
    intro bs hab hba
    cases bs with
    | nil => simp [strLeb] at hab
    | cons b bs =>
      simp only [strLeb] at hab hba
      by_cases h1 : a.toNat < b.toNat
      · rw [if_neg (by omega), if_pos h1] at hba; cases hba
      · rw [if_neg h1] at hab
        by_cases h2 : b.toNat < a.toNat
        · rw [if_pos h2] at hab; cases hab
        · rw [if_neg h2] at hab
          rw [if_neg (by omega), if_neg (by omega)] at hba
          rw [char_eq_of_toNat_eq a b (by omega), ih bs hab hba]

theorem strLe_total (a b : String) : strLe a b = true ∨ strLe b a = true :=
  strLeb_total a.data b.data

theorem strLe_trans (a b c : String) (h1 : strLe a b = true) (h2 : strLe b c = true) :
    strLe a c = true :=
  strLeb_trans a.data b.data c.data h1 h2

theorem strLe_antisymm (a b : String) (h1 : strLe a b = true) (h2 : strLe b a = true) :
    a = b := by
  have := strLeb_antisymm a.data b.data h1 h2
  cases a; cases b
  exact congrArg String.mk this

instance : IsTotal String (fun a b : String => strLe a b = true) := ⟨strLe_total⟩

instance : IsTrans String (fun a b : String => strLe a b = true) :=
  ⟨fun a b c => strLe_trans a b c⟩

instance : IsAntisymm String (fun a b : String => strLe a b = true) :=
  ⟨fun a b => strLe_antisymm a b⟩

theorem sortedToolNames_sorted (l : List String) :
    List.Sorted (fun a b : String => strLe a b = true) (sortedToolNames l) :=
  List.sorted_insertionSort _ _

theorem sortedToolNames_eq_of_same_members (l₁ l₂ : List String)
    (h : l₁.toFinset = l₂.toFinset) : sortedToolNames l₁ = sortedToolNames l₂ := by
  have hmem : ∀ a, a ∈ sortedToolNames l₁ ↔ a ∈ sortedToolNames l₂ := by
    intro a
    rw [mem_sortedToolNames, mem_sortedToolNames, ← List.mem_toFinset, h, List.mem_toFinset]
  have hperm : (sortedToolNames l₁).Perm (sortedToolNames l₂) :=
    (List.perm_ext_iff_of_nodup (nodup_sortedToolNames l₁) (nodup_sortedToolNames l₂)).mpr hmem
  exact List.eq_of_perm_of_sorted hperm (sortedToolNames_sorted l₁) (sortedToolNames_sorted l₂)

/-! ### Setup and rescan apply toggles identically -/

theorem toggleStep_setup_true_eq_rescan (allow : List String) (tools : Obj) (n : String) :
    toggleStep allow PatchMode.setup true tools n = toggleStep allow PatchMode.rescan true tools n := by
  simp only [toggleStep, Bool.true_and]

theorem foldl_setup_false_eq_rescan (allow : List String) (p : Bool) (ns : List String)
    (tools : Obj) (hnd : ns.Nodup) (habs : ∀ n ∈ ns, olookup tools (toolKey n) = none) :
    ns.foldl (toggleStep allow PatchMode.setup false) tools =
      ns.foldl (toggleStep allow PatchMode.rescan p) tools := by
  induction ns generalizing tools with
  | nil => rfl
  | cons n ns ih =>
    rw [List.foldl_cons, List.foldl_cons]
    have hstep : toggleStep allow PatchMode.setup false tools n =
        toggleStep allow PatchMode.rescan p tools n := by
      simp only [toggleStep, Bool.false_and, if_false]
      rw [habs n (List.mem_cons_self n ns)]
      simp
    rw [hstep]
    refine ih _ (List.Nodup.of_cons hnd) ?_
    intro m hm
    rw [toggleStep_frame]
    · exact habs m (List.mem_cons_of_mem n hm)
    · intro he
      exact (List.nodup_cons.mp hnd).1 (toolKey_inj m n he ▸ hm)

theorem applyToolToggles_setup_eq_rescan (tools : Obj) (toolNames allow : List String) :
    applyToolToggles tools toolNames allow PatchMode.setup =
      applyToolToggles tools toolNames allow PatchMode.rescan := by
  unfold applyToolToggles
  by_cases hp : hasPalantirToggles tools
  · rw [hp]
    have : (sortedToolNames toolNames).foldl (toggleStep allow PatchMode.setup true) tools =
        (sortedToolNames toolNames).foldl (toggleStep allow PatchMode.rescan true) tools := by
      have hf : toggleStep allow PatchMode.setup true = toggleStep allow PatchMode.rescan true :=
        funext fun ts => funext fun n => toggleStep_setup_true_eq_rescan allow ts n
      rw [hf]
    simp [this]
  · have hp' : hasPalantirToggles tools = false := by simpa using hp
    rw [hp']
    have := foldl_setup_false_eq_rescan allow false (sortedToolNames toolNames) tools
      (nodup_sortedToolNames toolNames)
      (fun n _ => hasPalantirToggles_false_lookup_none tools n hp')
    simp [this]

/-! ### Lemmas about trimming and the generated-note annotation -/

theorem genNotePfx_ne_nil : genNotePfx.data ≠ [] := by decide

theorem genNotePfx_bar_not_mem : ¬ ('|' ∈ genNotePfx.data) := by decide

theorem genNotePfx_getLast : genNotePfx.data.getLast? = some '.' := by decide

theorem genNotePfx_head : genNotePfx.data.head? = some 'G' := by decide

theorem dropWhile_dropWhile (p : Char → Bool) (l : List Char) :
    (l.dropWhile p).dropWhile p = l.dropWhile p := by
  induction l with
  | nil => rfl
  | cons c t ih =>
    by_cases hc : p c <;> simp [List.dropWhile_cons, hc, ih]

theorem trimEndL_idem (l : List Char) : trimEndL (trimEndL l) = trimEndL l := by
  rw [trimEndL, trimEndL, List.reverse_reverse, dropWhile_dropWhile]

theorem trimEndL_pre (l : List Char) : trimEndL l <+: l := by
  rw [trimEndL]
  have h2 := (List.dropWhile_suffix (l := l.reverse) isWS).reverse
  rwa [List.reverse_reverse] at h2

theorem trimL_within (l : List Char) : trimL l <:+: l := by
  rw [trimL]
  exact (trimEndL_pre _).isInfix.trans (List.dropWhile_suffix isWS).isInfix

theorem trimEndL_fixed_rev (B : List Char) (h : trimEndL B = B) :
    B.reverse.dropWhile isWS = B.reverse := by
  have := congrArg List.reverse h
  rwa [trimEndL, List.reverse_reverse] at this

theorem dropSepEnd_suffix (r : List Char) : dropSepEnd r <:+ r := by
  cases r with
  | nil => exact List.nil_suffix
  | cons c rest =>
    rw [dropSepEnd]
    split
    · exact (List.dropWhile_suffix isWS).trans (List.suffix_cons c rest)
    · exact List.suffix_refl _

theorem stripSepEnd_within (l : List Char) : stripSepEnd l <:+: l := by
  rw [stripSepEnd]
  have h0 : (l.reverse.dropWhile isWS) <:+ l.reverse := List.dropWhile_suffix isWS
  have h1 : dropSepEnd (l.reverse.dropWhile isWS) <:+ l.reverse :=
    (dropSepEnd_suffix _).trans h0
  have h2 := h1.reverse
  rw [List.reverse_reverse] at h2
  exact ((trimEndL_pre _).trans h2).isInfix

theorem splitFirst_parts (pat : List Char) (l b r : List Char)
    (h : splitFirst pat l = some (b, r)) : b ++ r = l ∧ pat.isPrefixOf r = true := by
  induction l generalizing b with
  | nil =>
    rw [splitFirst] at h
    split at h
    · next hp =>
      simp at h
      obtain ⟨hb, hr⟩ := h
      subst hb; subst hr
      exact ⟨rfl, hp⟩
    · simp at h
  | cons c t ih =>
    rw [splitFirst] at h
    split at h
    · next hp =>
      simp at h
      obtain ⟨hb, hr⟩ := h
      subst hb; subst hr
      exact ⟨rfl, hp⟩
    · cases hs : splitFirst pat t with
      | none => rw [hs] at h; simp at h
      | some p =>
        rw [hs] at h
        simp at h
        obtain ⟨hb, hr⟩ := h
        obtain ⟨hbr, hpr⟩ := ih p.1 (by rw [hs, ← hr])
        constructor
        · rw [← hb, List.cons_append, hbr]
        · exact hpr

theorem splitFirst_none_iff (pat : List Char) (l : List Char) :
    splitFirst pat l = none ↔ ¬ pat <:+: l := by
  induction l with
  | nil =>
    rw [splitFirst]
    constructor
    · intro h hinf
      rw [List.infix_nil.mp hinf] at h
      simp [List.isPrefixOf] at h
    · intro h
      rw [if_neg]
      intro hp
      exact h (List.infix_nil.mpr (List.prefix_nil.mp (List.isPrefixOf_iff_prefix.mp hp)))
  | cons c t ih =>
    rw [splitFirst]
    constructor
    · intro h hinf
      split at h
      · simp at h
      · next hp =>
        rcases List.infix_cons_iff.mp hinf with h1 | h1
        · exact hp (List.isPrefixOf_iff_prefix.mpr h1)
        · cases hs : splitFirst pat t with
          | none => exact (ih.mp hs) h1
          | some p => rw [hs] at h; simp at h
    · intro h
      rw [if_neg (fun hp => h (List.isPrefixOf_iff_prefix.mp hp).isInfix)]
      rw [ih.mpr (fun hinf => h (List.infix_cons_iff.mpr (Or.inr hinf)))]
      rfl

theorem splitFirst_before_free (pat : List Char) (hne : pat ≠ []) (l b r : List Char)
    (h : splitFirst pat l = some (b, r)) : ¬ pat <:+: b := by
  induction l generalizing b with
  | nil =>
    rw [splitFirst, if_neg] at h
    · simp at h
    · intro hp
      exact hne (List.prefix_nil.mp (List.isPrefixOf_iff_prefix.mp hp))
  | cons c t ih =>
    rw [splitFirst] at h
    split at h
    · simp at h
      rw [h.1]
      intro hinf
      exact hne (List.infix_nil.mp hinf)
    · next hp =>
      cases hs : splitFirst pat t with
      | none => rw [hs] at h; simp at h
      | some p =>
        rw [hs] at h
        simp at h
        obtain ⟨hb, hr⟩ := h
        rw [← hb]
        intro hinf
        rcases List.infix_cons_iff.mp hinf with h1 | h1
        · obtain ⟨hbr, _⟩ := splitFirst_parts pat t p.1 p.2 hs
          have hpfx : (c :: p.1) <+: (c :: t) := by
            rw [← hbr]
            exact ⟨p.2, by rw [List.cons_append]⟩
          exact hp (List.isPrefixOf_iff_prefix.mpr (h1.trans hpfx))
        · exact (ih p.1 (by rw [hs, ← hr])) h1

theorem splitFirst_of_isPrefixOf (pat l : List Char) (h : pat.isPrefixOf l = true) :
    splitFirst pat l = some ([], l) := by
  cases l with
  | nil => rw [splitFirst, if_pos h]
  | cons c t => rw [splitFirst, if_pos h]

theorem head_ne_not_pfx (pat x : List Char) (h0 c : Char)
    (hh : pat.head? = some h0) (hne : h0 ≠ c) : ¬ pat <+: (c :: x) := by
  intro hp
  obtain ⟨t, ht⟩ := hp
  cases pat with
  | nil => simp at hh
  | cons p0 pt =>
    simp at hh
    rw [List.cons_append] at ht
    injection ht with h1 _
    exact hne (by rw [← hh]; exact h1)

/-- The generated-note prefix cannot start before the `" | "` separator in
`base ++ " | " ++ note`: it does not occur in `base`, it contains no `'|'`,
and it neither starts nor ends with a space. -/
theorem not_prefix_join (W rest : List Char) (hW : ¬ genNotePfx.data <:+: W) :
    ¬ genNotePfx.data <+: (W ++ ' ' :: '|' :: rest) := by
  intro hp
  rcases Nat.lt_or_ge genNotePfx.data.length (W.length + 1) with hlt | hge
  · have hle : genNotePfx.data.length ≤ W.length := Nat.lt_succ_iff.mp hlt
    have h1 : genNotePfx.data <+: W :=
      List.prefix_of_prefix_length_le hp (List.prefix_append W _) hle
    exact hW h1.isInfix
  · rcases Nat.eq_or_lt_of_le hge with heq | hlt2
    · have htake := List.prefix_iff_eq_take.mp hp
      rw [← heq] at htake
      have hcomp : List.take (W.length + 1) (W ++ ' ' :: '|' :: rest) = W ++ [' '] := by
        rw [List.take_append_eq_append_take]
        congr 1
        · exact List.take_of_length_le (by omega)
        · simp
      rw [hcomp] at htake
      have hlast : genNotePfx.data.getLast? = some ' ' := by
        rw [htake]
        exact List.getLast?_concat W
      rw [genNotePfx_getLast] at hlast
      simp at hlast
    · obtain ⟨t, ht⟩ := hp
      have hL : (W ++ ' ' :: '|' :: rest)[W.length + 1]? = some '|' := by
        rw [List.getElem?_append_right (by omega)]
        simp
      rw [← ht, List.getElem?_append, if_pos (by omega)] at hL
      exact genNotePfx_bar_not_mem (List.getElem?_mem hL)

theorem splitFirst_cons_not_pfx (pat : List Char) (c : Char) (t : List Char)
    (h : ¬ pat <+: (c :: t)) :
    splitFirst pat (c :: t) = (splitFirst pat t).map (fun p => (c :: p.1, p.2)) := by
  rw [splitFirst, if_neg (fun hp => h (List.isPrefixOf_iff_prefix.mp hp))]

/-- Locating the generated note inside an annotated description
`B ++ " | " ++ (genNotePfx ++ tl)`: the first occurrence of the prefix starts
right after the separator. -/
theorem splitFirst_join (B tl : List Char) (hfree : ¬ genNotePfx.data <:+: B) :
    splitFirst genNotePfx.data (B ++ ' ' :: '|' :: ' ' :: (genNotePfx.data ++ tl)) =
      some (B ++ [' ', '|', ' '], genNotePfx.data ++ tl) := by
  induction B with
  | nil =>
    simp only [List.nil_append]
    rw [splitFirst_cons_not_pfx _ _ _
      (head_ne_not_pfx _ _ 'G' ' ' genNotePfx_head (by decide))]
    rw [splitFirst_cons_not_pfx _ _ _
      (head_ne_not_pfx _ _ 'G' '|' genNotePfx_head (by decide))]
    rw [splitFirst_cons_not_pfx _ _ _
      (head_ne_not_pfx _ _ 'G' ' ' genNotePfx_head (by decide))]
    rw [splitFirst_of_isPrefixOf _ _
      (List.isPrefixOf_iff_prefix.mpr (List.prefix_append _ _))]
    rfl
  | cons c B ih =>
    have hfree' : ¬ genNotePfx.data <:+: B :=
      fun hinf => hfree (List.infix_cons_iff.mpr (Or.inr hinf))
    rw [List.cons_append]
    rw [splitFirst_cons_not_pfx _ _ _ (by
      have := not_prefix_join (c :: B) (' ' :: (genNotePfx.data ++ tl)) hfree
      rwa [List.cons_append] at this)]
    rw [ih hfree']
    rfl

theorem isWS_space : isWS ' ' = true := rfl

theorem isWS_bar : isWS '|' = false := rfl

/-- Stripping the generated note from an already-annotated description
recovers the base exactly (`base` contains no occurrence of the prefix and no
trailing whitespace). -/
theorem stripL_of_annotated (B tl : List Char)
    (hfree : ¬ genNotePfx.data <:+: B) (hfix : trimEndL B = B) :
    stripGeneratedNoteL (B ++ ' ' :: '|' :: ' ' :: (genNotePfx.data ++ tl)) = B := by
  rw [stripGeneratedNoteL, splitFirst_join B tl hfree]
  show stripSepEnd (B ++ [' ', '|', ' ']) = B
  rw [stripSepEnd]
  have hrev : (B ++ [' ', '|', ' ']).reverse = ' ' :: '|' :: ' ' :: B.reverse := by
    simp
  rw [hrev]
  rw [List.dropWhile_cons]
  rw [isWS_space]
  simp only [if_true]
  rw [List.dropWhile_cons, isWS_bar]
  simp only [Bool.false_eq_true, if_false]
  rw [dropSepEnd]
  simp only [if_pos (by rfl : ('|' == '|' || '|' == '-') = true)]
  rw [List.dropWhile_cons, isWS_space]
  simp only [if_true]
  rw [trimEndL_fixed_rev B hfix, List.reverse_reverse]
  exact hfix

/-- Stripping a string that begins with the generated-note prefix yields the
empty base. -/
theorem stripL_of_note (tl : List Char) :
    stripGeneratedNoteL (genNotePfx.data ++ tl) = [] := by
  rw [stripGeneratedNoteL, splitFirst_of_isPrefixOf _ _
    (List.isPrefixOf_iff_prefix.mpr (List.prefix_append _ _))]
  rfl

theorem strip_trimEnd_fixed (l : List Char) :
    trimEndL (stripGeneratedNoteL l) = stripGeneratedNoteL l := by
  rw [stripGeneratedNoteL]
  cases hs : splitFirst genNotePfx.data l with
  | none => rw [trimL, trimEndL_idem]
  | some p =>
    show trimEndL (stripSepEnd p.1) = stripSepEnd p.1
    rw [stripSepEnd, trimEndL_idem]

theorem strip_patFree (l : List Char) :
    ¬ genNotePfx.data <:+: stripGeneratedNoteL l := by
  rw [stripGeneratedNoteL]
  cases hs : splitFirst genNotePfx.data l with
  | none =>
    intro hinf
    exact (splitFirst_none_iff _ _).mp hs (hinf.trans (trimL_within l))
  | some p =>
    intro hinf
    exact splitFirst_before_free _ genNotePfx_ne_nil l p.1 p.2 (by rw [hs])
      (hinf.trans (stripSepEnd_within p.1))

theorem string_mk_data (s : String) : String.mk s.data = s := by
  cases s
  rfl

def noteTail (profile : String) : String :=
  " Profile: " ++ profile ++ ". Edit palantir-mcp_* tool flags below to reject tools."

theorem buildGeneratedNote_data (profile : String) :
    (buildGeneratedNote profile).data = genNotePfx.data ++ (noteTail profile).data := by
  rw [buildGeneratedNote, noteTail]
  simp [String.data_append]

theorem sepNote_data (profile : String) :
    (" | " ++ buildGeneratedNote profile).data =
      ' ' :: '|' :: ' ' :: (genNotePfx.data ++ (noteTail profile).data) := by
  rw [String.data_append, buildGeneratedNote_data]
  rfl

theorem joinNote_data_of_ne (base profile : String) (h : ¬ base = "") :
    (joinNote base profile).data =
      base.data ++ ' ' :: '|' :: ' ' :: (genNotePfx.data ++ (noteTail profile).data) := by
  rw [joinNote, if_neg h, String.data_append, String.data_append,
    buildGeneratedNote_data, List.append_assoc]
  rfl

/-- A freshly annotated description strips back to its base: the fixed point
of `annotateAgentDescription`. -/
theorem stripGeneratedNote_joinNote (base profile : String)
    (hfree : ¬ genNotePfx.data <:+: base.data) (hfix : trimEndL base.data = base.data) :
    stripGeneratedNote (joinNote base profile) = base := by
  by_cases hb : base = ""
  · subst hb
    rw [joinNote, if_pos rfl, stripGeneratedNote]
    have : (buildGeneratedNote profile).data = genNotePfx.data ++ (noteTail profile).data :=
      buildGeneratedNote_data profile
    rw [this, stripL_of_note]
  · rw [stripGeneratedNote, joinNote_data_of_ne base profile hb,
      stripL_of_annotated base.data (noteTail profile).data hfree hfix, string_mk_data]

theorem stripGeneratedNote_free (s : String) :
    ¬ genNotePfx.data <:+: (stripGeneratedNote s).data :=
  strip_patFree s.data

theorem stripGeneratedNote_fixed (s : String) :
    trimEndL (stripGeneratedNote s).data = (stripGeneratedNote s).data :=
  strip_trimEnd_fixed s.data

/-- Annotation is idempotent on descriptions: annotating an annotated
description rewrites it to itself. -/
theorem joinNote_strip_fix (desc profile : String) :
    joinNote (stripGeneratedNote (joinNote (stripGeneratedNote desc) profile)) profile =
      joinNote (stripGeneratedNote desc) profile := by
  rw [stripGeneratedNote_joinNote (stripGeneratedNote desc) profile
    (stripGeneratedNote_free desc) (stripGeneratedNote_fixed desc)]

/-- An annotated description contains the generated-note prefix. -/
theorem containsSub_joinNote (base profile : String)
    (hfree : ¬ genNotePfx.data <:+: base.data) :
    containsSub (joinNote base profile) genNotePfx = true := by
  rw [containsSub, containsSubL]
  by_cases hb : base = ""
  · subst hb
    rw [joinNote, if_pos rfl, buildGeneratedNote_data,
      splitFirst_of_isPrefixOf _ _ (List.isPrefixOf_iff_prefix.mpr (List.prefix_append _ _))]
    rfl
  · rw [joinNote_data_of_ne base profile hb,
      splitFirst_join base.data (noteTail profile).data hfree]
    rfl

/-! ### Field-fill lemmas -/

theorem fillStrField_str (ag : Obj) (k : String) (d : String) :
    ∃ s, olookup (fillStrField ag k d) k = some (JValue.vStr s) := by
  rw [fillStrField]
  split
  · next s heq => exact ⟨s, heq⟩
  · exact ⟨d, olookup_oset_self ag k _⟩

theorem fillBoolField_bool (ag : Obj) (k : String) (d : Bool) :
    ∃ b, olookup (fillBoolField ag k d) k = some (JValue.vBool b) := by
  rw [fillBoolField]
  split
  · next b heq => exact ⟨b, heq⟩
  · exact ⟨d, olookup_oset_self ag k _⟩

theorem fillStrField_frame (ag : Obj) (k k' : String) (d : String) (h : k' ≠ k) :
    olookup (fillStrField ag k d) k' = olookup ag k' := by
  rw [fillStrField]
  split
  · rfl
  · exact olookup_oset_ne ag k k' _ h

theorem fillBoolField_frame (ag : Obj) (k k' : String) (d : Bool) (h : k' ≠ k) :
    olookup (fillBoolField ag k d) k' = olookup ag k' := by
  rw [fillBoolField]
  split
  · rfl
  · exact olookup_oset_ne ag k k' _ h

theorem fillStrField_keep (ag : Obj) (k : String) (d s : String)
    (h : olookup ag k = some (JValue.vStr s)) : fillStrField ag k d = ag := by
  rw [fillStrField]
  split
  · rfl
  · next hne => exact absurd h (hne s)

theorem fillBoolField_keep (ag : Obj) (k : String) (d : Bool) (b : Bool)
    (h : olookup ag k = some (JValue.vBool b)) : fillBoolField ag k d = ag := by
  rw [fillBoolField]
  split
  · rfl
  · next hne => exact absurd h (hne b)

theorem ensureAgentDefaults_mode (ag : Obj) (n : String) :
    ∃ m, olookup (ensureAgentDefaults ag n) "mode" = some (JValue.vStr m) := by
  rw [ensureAgentDefaults]
  obtain ⟨m, hm⟩ := fillStrField_str ag "mode" "subagent"
  refine ⟨m, ?_⟩
  rw [fillStrField_frame _ _ _ _ (by decide), fillStrField_frame _ _ _ _ (by decide),
    fillBoolField_frame _ _ _ _ (by decide)]
  exact hm

theorem ensureAgentDefaults_hidden (ag : Obj) (n : String) :
    ∃ b, olookup (ensureAgentDefaults ag n) "hidden" = some (JValue.vBool b) := by
  rw [ensureAgentDefaults]
  obtain ⟨b, hb⟩ := fillBoolField_bool (fillStrField ag "mode" "subagent") "hidden" false
  refine ⟨b, ?_⟩
  rw [fillStrField_frame _ _ _ _ (by decide), fillStrField_frame _ _ _ _ (by decide)]
  exact hb

theorem ensureAgentDefaults_descr (ag : Obj) (n : String) :
    ∃ d, olookup (ensureAgentDefaults ag n) "description" = some (JValue.vStr d) := by
  rw [ensureAgentDefaults]
  obtain ⟨d, hd⟩ := fillStrField_str
    (fillBoolField (fillStrField ag "mode" "subagent") "hidden" false) "description"
    (defaultDescription n)
  refine ⟨d, ?_⟩
  rw [fillStrField_frame _ _ _ _ (by decide)]
  exact hd

theorem ensureAgentDefaults_prompt (ag : Obj) (n : String) :
    ∃ p, olookup (ensureAgentDefaults ag n) "prompt" = some (JValue.vStr p) :=
  fillStrField_str _ "prompt" (defaultPrompt n)

theorem ensureAgentDefaults_frame (ag : Obj) (n : String) (k : String)
    (h1 : k ≠ "mode") (h2 : k ≠ "hidden") (h3 : k ≠ "description") (h4 : k ≠ "prompt") :
    olookup (ensureAgentDefaults ag n) k = olookup ag k := by
  rw [ensureAgentDefaults, fillStrField_frame _ _ _ _ h4, fillStrField_frame _ _ _ _ h3,
    fillBoolField_frame _ _ _ _ h2, fillStrField_frame _ _ _ _ h1]

theorem ensureAgentDefaults_of_stable (ag : Obj) (n : String)
    (hm : ∃ m, olookup ag "mode" = some (JValue.vStr m))
    (hh : ∃ b, olookup ag "hidden" = some (JValue.vBool b))
    (hd : ∃ d, olookup ag "description" = some (JValue.vStr d))
    (hp : ∃ p, olookup ag "prompt" = some (JValue.vStr p)) :
    ensureAgentDefaults ag n = ag := by
  obtain ⟨m, hm⟩ := hm
  obtain ⟨b, hh⟩ := hh
  obtain ⟨d, hd⟩ := hd
  obtain ⟨p, hp⟩ := hp
  rw [ensureAgentDefaults, fillStrField_keep ag _ _ _ hm, fillBoolField_keep ag _ _ _ hh,
    fillStrField_keep ag _ _ _ hd, fillStrField_keep ag _ _ _ hp]

/-! ### Annotation and docs-default lemmas -/

theorem isSome_of_not_isNone {o : Option JValue} (h : ¬ o.isNone = true) : o.isSome := by
  cases o with
  | none => simp at h
  | some v => rfl

theorem isNone_false_of_isSome {o : Option JValue} (h : o.isSome) : o.isNone = false := by
  cases o with
  | none => simp at h
  | some v => rfl

theorem annotate_frame (ag : Obj) (n profile : String) (mode : PatchMode) (k : String)
    (h : k ≠ "description") :
    olookup (annotateAgentDescription ag n profile mode) k = olookup ag k := by
  simp only [annotateAgentDescription]
  split
  · exact olookup_oset_ne ag "description" k _ h
  · rfl

theorem annotate_of_should (ag : Obj) (n profile : String) (mode : PatchMode) (dd : String)
    (hd : olookup ag "description" = some (JValue.vStr dd))
    (hs : shouldAnnotateB dd n mode = true) :
    annotateAgentDescription ag n profile mode =
      oset ag "description" (JValue.vStr (joinNote (stripGeneratedNote dd) profile)) := by
  simp only [annotateAgentDescription, hd]
  rw [if_pos hs]

theorem annotate_of_not_should (ag : Obj) (n profile : String) (mode : PatchMode) (dd : String)
    (hd : olookup ag "description" = some (JValue.vStr dd))
    (hs : shouldAnnotateB dd n mode = false) :
    annotateAgentDescription ag n profile mode = ag := by
  simp only [annotateAgentDescription, hd]
  rw [if_neg (by rw [hs]; exact Bool.false_ne_true)]

theorem fillAbsent_keep (tt : Obj) (kk : String) (v' : JValue) (k : String) (v : JValue)
    (h : olookup tt k = some v) :
    olookup (if (olookup tt kk).isNone then oset tt kk v' else tt) k = some v := by
  split
  · next hn =>
    by_cases hk : k = kk
    · subst hk; rw [h] at hn; simp at hn
    · rw [olookup_oset_ne _ _ _ _ hk]; exact h
  · exact h

theorem fillAbsent_self (tt : Obj) (kk : String) (v' : JValue) :
    (olookup (if (olookup tt kk).isNone then oset tt kk v' else tt) kk).isSome := by
  split
  · simp [olookup_oset_self]
  · next hn => exact isSome_of_not_isNone hn

theorem fillAbsent_mono (tt : Obj) (kk : String) (v' : JValue) (k : String)
    (h : (olookup tt k).isSome) :
    (olookup (if (olookup tt kk).isNone then oset tt kk v' else tt) k).isSome := by
  split
  · exact olookup_oset_isSome_mono tt kk k v' h
  · exact h

theorem ensureDocsToolDefaults_gdp (t : Obj) (n : String) :
    (olookup (ensureDocsToolDefaults t n) "get_doc_page").isSome := by
  simp only [ensureDocsToolDefaults]
  exact fillAbsent_mono _ _ _ _ (fillAbsent_self t "get_doc_page" _)

theorem ensureDocsToolDefaults_lad (t : Obj) (n : String) :
    (olookup (ensureDocsToolDefaults t n) "list_all_docs").isSome := by
  simp only [ensureDocsToolDefaults]
  exact fillAbsent_self _ "list_all_docs" _

theorem ensureDocsToolDefaults_keep (t : Obj) (n : String) (k : String) (v : JValue)
    (h : olookup t k = some v) :
    olookup (ensureDocsToolDefaults t n) k = some v := by
  simp only [ensureDocsToolDefaults]
  exact fillAbsent_keep _ _ _ _ _ (fillAbsent_keep t "get_doc_page" _ k v h)

theorem ensureDocsToolDefaults_of_present (t : Obj) (n : String)
    (h1 : (olookup t "get_doc_page").isSome) (h2 : (olookup t "list_all_docs").isSome) :
    ensureDocsToolDefaults t n = t := by
  simp only [ensureDocsToolDefaults, isNone_false_of_isSome h1, Bool.false_eq_true, if_false,
    isNone_false_of_isSome h2]

theorem ensureDocsToolDefaults_isSome_mono (t : Obj) (n : String) (k : String)
    (h : (olookup t k).isSome) :
    (olookup (ensureDocsToolDefaults t n) k).isSome := by
  simp only [ensureDocsToolDefaults]
  exact fillAbsent_mono _ _ _ _ (fillAbsent_mono t "get_doc_page" _ k h)

/-! ### Applying toggles to a map that already has all keys is the identity -/

theorem foldl_rescan_skip_id (allow : List String) (p : Bool) (ns : List String) (t : Obj)
    (h : ∀ n ∈ ns, (olookup t (toolKey n)).isSome) :
    ns.foldl (toggleStep allow PatchMode.rescan p) t = t := by
  induction ns with
  | nil => rfl
  | cons n ns ih =>
    rw [List.foldl_cons]
    have hstep : toggleStep allow PatchMode.rescan p t n = t := by
      simp only [toggleStep]
      rw [if_pos (h n (List.mem_cons_self n ns))]
    rw [hstep]
    exact ih (fun m hm => h m (List.mem_cons_of_mem n hm))

theorem foldl_setup_true_skip_id (allow : List String) (ns : List String) (t : Obj)
    (h : ∀ n ∈ ns, (olookup t (toolKey n)).isSome) :
    ns.foldl (toggleStep allow PatchMode.setup true) t = t := by
  induction ns with
  | nil => rfl
  | cons n ns ih =>
    rw [List.foldl_cons]
    have hstep : toggleStep allow PatchMode.setup true t n = t := by
      simp only [toggleStep, Bool.true_and]
      rw [if_pos (h n (List.mem_cons_self n ns))]
    rw [hstep]
    exact ih (fun m hm => h m (List.mem_cons_of_mem n hm))

theorem applyToolToggles_fst_all_present (t : Obj) (tn allow : List String) (mode : PatchMode)
    (h : ∀ n ∈ sortedToolNames tn, (olookup t (toolKey n)).isSome) :
    (applyToolToggles t tn allow mode).1 = t := by
  cases mode with
  | rescan =>
    simp only [applyToolToggles]
    exact foldl_rescan_skip_id allow _ _ t h
  | setup =>
    simp only [applyToolToggles]
    cases hs : sortedToolNames tn with
    | nil => rfl
    | cons n ns =>
      have hp : hasPalantirToggles t = true :=
        hasPalantirToggles_of_lookup_isSome t n (h n (by rw [hs]; exact List.mem_cons_self n ns))
      rw [hp]
      exact foldl_setup_true_skip_id allow (n :: ns) t (by
        intro m hm
        exact h m (by rw [hs]; exact hm))

/-! ### Stability of a processed agent -/

theorem applyToolToggles_fst (t : Obj) (tn allow : List String) (mode : PatchMode) :
    (applyToolToggles t tn allow mode).1 =
      (sortedToolNames tn).foldl (toggleStep allow mode (hasPalantirToggles t)) t := rfl

/-- Everything `patchAgentFull` guarantees about the agent object it stores;
re-running either reconciliation mode on a stable agent is the identity. -/
structure AgentStable (ag : Obj) (agentName profile : String) (mode : PatchMode)
    (toolNames : List String) : Prop where
  mode_str : ∃ m, olookup ag "mode" = some (JValue.vStr m)
  hidden_bool : ∃ b, olookup ag "hidden" = some (JValue.vBool b)
  prompt_str : ∃ p, olookup ag "prompt" = some (JValue.vStr p)
  descr_stable : ∃ dd, olookup ag "description" = some (JValue.vStr dd) ∧
    (shouldAnnotateB dd agentName mode = true →
      joinNote (stripGeneratedNote dd) profile = dd)
  tools_ok : ∃ t, olookup ag "tools" = some (JValue.vObj t) ∧
    (olookup t "get_doc_page").isSome ∧ (olookup t "list_all_docs").isSome ∧
    ∀ n ∈ sortedToolNames toolNames, (olookup t (toolKey n)).isSome

theorem patchedAgent_stable (d : Obj) (agentName profile : String) (mode : PatchMode)
    (toolNames allow : List String) :
    AgentStable (patchedAgent d agentName profile mode toolNames allow)
      agentName profile mode toolNames := by
  simp only [patchedAgent]
  set ag0 := objAt (objAt d "agent") agentName with hag0
  set ag1 := ensureAgentDefaults ag0 agentName with hag1
  set ag2 := annotateAgentDescription ag1 agentName profile mode with hag2
  set tl := ensureDocsToolDefaults (objAt ag2 "tools") agentName with htl
  set tl2 := (applyToolToggles tl toolNames allow mode).1 with htl2
  have htoolsne1 : ("mode" : String) ≠ "tools" := by decide
  have htoolsne2 : ("hidden" : String) ≠ "tools" := by decide
  have htoolsne3 : ("prompt" : String) ≠ "tools" := by decide
  have htoolsne4 : ("description" : String) ≠ "tools" := by decide
  constructor
  · obtain ⟨m, hm⟩ := ensureAgentDefaults_mode ag0 agentName
    refine ⟨m, ?_⟩
    rw [olookup_oset_ne _ _ _ _ htoolsne1, hag2,
      annotate_frame ag1 agentName profile mode "mode" (by decide)]
    exact hm
  · obtain ⟨b, hb⟩ := ensureAgentDefaults_hidden ag0 agentName
    refine ⟨b, ?_⟩
    rw [olookup_oset_ne _ _ _ _ htoolsne2, hag2,
      annotate_frame ag1 agentName profile mode "hidden" (by decide)]
    exact hb
  · obtain ⟨p, hp⟩ := ensureAgentDefaults_prompt ag0 agentName
    refine ⟨p, ?_⟩
    rw [olookup_oset_ne _ _ _ _ htoolsne3, hag2,
      annotate_frame ag1 agentName profile mode "prompt" (by decide)]
    exact hp
  · obtain ⟨d0, hd0⟩ := ensureAgentDefaults_descr ag0 agentName
    cases hs : shouldAnnotateB d0 agentName mode with
    | true =>
      refine ⟨joinNote (stripGeneratedNote d0) profile, ?_, ?_⟩
      · rw [olookup_oset_ne _ _ _ _ htoolsne4, hag2,
          annotate_of_should ag1 agentName profile mode d0 hd0 hs, olookup_oset_self]
      · intro _
        exact joinNote_strip_fix d0 profile
    | false =>
      refine ⟨d0, ?_, ?_⟩
      · rw [olookup_oset_ne _ _ _ _ htoolsne4, hag2,
          annotate_of_not_should ag1 agentName profile mode d0 hd0 hs]
        exact hd0
      · intro hpre
        rw [hs] at hpre
        exact absurd hpre Bool.false_ne_true
  · refine ⟨tl2, olookup_oset_self _ _ _, ?_, ?_, ?_⟩
    · rw [htl2, applyToolToggles_fst]
      exact foldl_toggle_isSome_mono _ _ _ _ _ _ (ensureDocsToolDefaults_gdp _ agentName)
    · rw [htl2, applyToolToggles_fst]
      exact foldl_toggle_isSome_mono _ _ _ _ _ _ (ensureDocsToolDefaults_lad _ agentName)
    · intro n hn
      rw [htl2, applyToolToggles_fst]
      exact foldl_toggle_present _ _ _ _ _ _ hn

theorem objAt_eq_of_lookup (o : Obj) (k : String) (x : Obj)
    (h : olookup o k = some (JValue.vObj x)) : objAt o k = x := by
  rw [objAt, h]

theorem patchedAgent_of_stable (d : Obj) (agentName profile : String) (mode : PatchMode)
    (toolNames allow : List String) (A ag : Obj)
    (hA : olookup d "agent" = some (JValue.vObj A))
    (hag : olookup A agentName = some (JValue.vObj ag))
    (hst : AgentStable ag agentName profile mode toolNames) :
    patchedAgent d agentName profile mode toolNames allow = ag := by
  obtain ⟨dd, hdd, hstab⟩ := hst.descr_stable
  obtain ⟨T, hT, hT1, hT2, hT3⟩ := hst.tools_ok
  simp only [patchedAgent]
  rw [objAt_eq_of_lookup d "agent" A hA, objAt_eq_of_lookup A agentName ag hag]
  rw [ensureAgentDefaults_of_stable ag agentName hst.mode_str hst.hidden_bool ⟨dd, hdd⟩
    hst.prompt_str]
  have hann : annotateAgentDescription ag agentName profile mode = ag := by
    cases hs : shouldAnnotateB dd agentName mode with
    | true =>
      rw [annotate_of_should ag agentName profile mode dd hdd hs, hstab hs,
        oset_self ag "description" _ hdd]
    | false =>
      exact annotate_of_not_should ag agentName profile mode dd hdd hs
  rw [hann, objAt_eq_of_lookup ag "tools" T hT,
    ensureDocsToolDefaults_of_present T agentName hT1 hT2,
    applyToolToggles_fst_all_present T toolNames allow mode hT3,
    oset_self ag "tools" _ hT]

theorem patchAgentFull_fst_of_stable (d : Obj) (agentName profile : String) (mode : PatchMode)
    (toolNames allow : List String) (A ag : Obj)
    (hA : olookup d "agent" = some (JValue.vObj A))
    (hag : olookup A agentName = some (JValue.vObj ag))
    (hst : AgentStable ag agentName profile mode toolNames) :
    (patchAgentFull d agentName profile mode toolNames allow).1 = d := by
  simp only [patchAgentFull]
  rw [objAt_eq_of_lookup d "agent" A hA,
    patchedAgent_of_stable d agentName profile mode toolNames allow A ag hA hag hst,
    oset_self A agentName _ hag, oset_self d "agent" _ hA]

/-! ### Stage lemmas for the top-level patch pipeline -/

theorem schemaStep_frame (d : Obj) (k : String) (h : k ≠ "$schema") :
    olookup (schemaStep d) k = olookup d k := by
  rw [schemaStep]
  split
  · exact olookup_oset_ne d "$schema" k _ h
  · rfl

theorem schemaStep_isSome (d : Obj) : (olookup (schemaStep d) "$schema").isSome := by
  rw [schemaStep]
  split
  · simp [olookup_oset_self]
  · next h => exact isSome_of_not_isNone h

theorem schemaStep_of_isSome (d : Obj) (h : (olookup d "$schema").isSome) :
    schemaStep d = d := by
  rw [schemaStep, if_neg]
  rw [isNone_false_of_isSome h]
  exact Bool.false_ne_true

theorem removeMeta_frame (d : Obj) (k : String) (h : k ≠ "palantir_mcp") :
    olookup (removeUnsupportedPalantirMeta d) k = olookup d k :=
  olookup_odelete_ne d "palantir_mcp" k h

theorem removeMeta_none (d : Obj) :
    olookup (removeUnsupportedPalantirMeta d) "palantir_mcp" = none :=
  olookup_odelete_self d "palantir_mcp"

theorem removeMeta_of_none (d : Obj) (h : olookup d "palantir_mcp" = none) :
    removeUnsupportedPalantirMeta d = d :=
  odelete_of_not_mem d "palantir_mcp" h

theorem deny_frame (d : Obj) (k : String) (h : k ≠ "tools") :
    olookup (ensureGlobalDeny d) k = olookup d k := by
  simp only [ensureGlobalDeny]
  exact olookup_oset_ne d "tools" k _ h

theorem deny_tools (d : Obj) :
    olookup (ensureGlobalDeny d) "tools" =
      some (JValue.vObj (oset (objAt d "tools") "palantir-mcp_*" (JValue.vBool false))) := by
  simp only [ensureGlobalDeny]
  exact olookup_oset_self d "tools" _

theorem deny_of_stable (d : Obj) (T : Obj)
    (h1 : olookup d "tools" = some (JValue.vObj T))
    (h2 : olookup T "palantir-mcp_*" = some (JValue.vBool false)) :
    ensureGlobalDeny d = d := by
  simp only [ensureGlobalDeny]
  rw [objAt_eq_of_lookup d "tools" T h1, oset_self T "palantir-mcp_*" _ h2,
    oset_self d "tools" _ h1]

theorem mcp_frame (d : Obj) (url : String) (k : String) (h : k ≠ "mcp") :
    olookup ((ensureMcpServer d url).1) k = olookup d k := by
  simp only [ensureMcpServer]
  split
  · exact olookup_oset_ne d "mcp" k _ h
  · exact olookup_oset_ne d "mcp" k _ h

theorem mcp_after (d : Obj) (url : String) :
    ∃ M, olookup ((ensureMcpServer d url).1) "mcp" = some (JValue.vObj M) ∧
      (olookup M "palantir-mcp").isSome := by
  simp only [ensureMcpServer]
  split
  · next h => exact ⟨objAt d "mcp", olookup_oset_self d "mcp" _, h⟩
  · refine ⟨oset (objAt d "mcp") "palantir-mcp" (serverDescriptor url),
      olookup_oset_self d "mcp" _, ?_⟩
    simp [olookup_oset_self]

theorem mcp_of_stable (d : Obj) (url : String) (M : Obj)
    (h1 : olookup d "mcp" = some (JValue.vObj M))
    (h2 : (olookup M "palantir-mcp").isSome) :
    (ensureMcpServer d url).1 = d := by
  simp only [ensureMcpServer]
  rw [objAt_eq_of_lookup d "mcp" M h1, if_pos h2]
  exact oset_self d "mcp" _ h1

theorem patchAgentFull_frame (d : Obj) (n profile : String) (mode : PatchMode)
    (tn allow : List String) (k : String) (h : k ≠ "agent") :
    olookup ((patchAgentFull d n profile mode tn allow).1) k = olookup d k := by
  simp only [patchAgentFull]
  exact olookup_oset_ne d "agent" k _ h

theorem patchAgentFull_agent (d : Obj) (n profile : String) (mode : PatchMode)
    (tn allow : List String) :
    olookup ((patchAgentFull d n profile mode tn allow).1) "agent" =
      some (JValue.vObj (oset (objAt d "agent") n
        (JValue.vObj (patchedAgent d n profile mode tn allow)))) := by
  simp only [patchAgentFull]
  exact olookup_oset_self d "agent" _

/-! ### Idempotence of the two reconciliation pipelines -/

theorem patchConfigForSetup_data_unfold (input : Obj) (url : String) (tn : List String)
    (profile : String) (la fa : List String) :
    (patchConfigForSetup input url tn profile la fa).data =
      (patchAgentFull (patchAgentFull ((ensureMcpServer (ensureGlobalDeny
          (removeUnsupportedPalantirMeta (schemaStep input))) url).1)
        "foundry-librarian" profile PatchMode.setup tn la).1
        "foundry" profile PatchMode.setup tn fa).1 := rfl

theorem patchConfigForRescan_data_unfold (input : Obj) (tn : List String)
    (profile : String) (la fa : List String) :
    (patchConfigForRescan input tn profile la fa).data =
      (patchAgentFull (patchAgentFull (ensureGlobalDeny
          (removeUnsupportedPalantirMeta (schemaStep input)))
        "foundry-librarian" profile PatchMode.rescan tn la).1
        "foundry" profile PatchMode.rescan tn fa).1 := rfl

/-- The facts the pipeline establishes about its output document. -/
structure DocStable (d : Obj) (profile : String) (mode : PatchMode) (tn : List String) :
    Prop where
  schema_some : (olookup d "$schema").isSome
  meta_none : olookup d "palantir_mcp" = none
  tools_deny : ∃ T, olookup d "tools" = some (JValue.vObj T) ∧
    olookup T "palantir-mcp_*" = some (JValue.vBool false)
  agents_stable : ∃ A, olookup d "agent" = some (JValue.vObj A) ∧
    (∃ L, olookup A "foundry-librarian" = some (JValue.vObj L) ∧
      AgentStable L "foundry-librarian" profile mode tn) ∧
    (∃ F, olookup A "foundry" = some (JValue.vObj F) ∧
      AgentStable F "foundry" profile mode tn)

theorem agent_stages_stable (d4 : Obj) (profile : String) (mode : PatchMode)
    (tn la fa : List String) :
    ∃ A, olookup ((patchAgentFull (patchAgentFull d4 "foundry-librarian" profile mode tn la).1
        "foundry" profile mode tn fa).1) "agent" = some (JValue.vObj A) ∧
      (∃ L, olookup A "foundry-librarian" = some (JValue.vObj L) ∧
        AgentStable L "foundry-librarian" profile mode tn) ∧
      (∃ F, olookup A "foundry" = some (JValue.vObj F) ∧
        AgentStable F "foundry" profile mode tn) := by
  set d5 := (patchAgentFull d4 "foundry-librarian" profile mode tn la).1 with hd5
  have hA5 : olookup d5 "agent" = some (JValue.vObj (oset (objAt d4 "agent")
      "foundry-librarian" (JValue.vObj (patchedAgent d4 "foundry-librarian" profile mode tn la)))) :=
    patchAgentFull_agent d4 "foundry-librarian" profile mode tn la
  refine ⟨oset (oset (objAt d4 "agent") "foundry-librarian"
      (JValue.vObj (patchedAgent d4 "foundry-librarian" profile mode tn la)))
      "foundry" (JValue.vObj (patchedAgent d5 "foundry" profile mode tn fa)), ?_, ?_, ?_⟩
  · have h6 := patchAgentFull_agent d5 "foundry" profile mode tn fa
    rw [objAt_eq_of_lookup d5 "agent" _ hA5] at h6
    exact h6
  · refine ⟨patchedAgent d4 "foundry-librarian" profile mode tn la, ?_,
      patchedAgent_stable d4 "foundry-librarian" profile mode tn la⟩
    rw [olookup_oset_ne _ _ _ _ (by decide)]
    exact olookup_oset_self _ _ _
  · exact ⟨patchedAgent d5 "foundry" profile mode tn fa, olookup_oset_self _ _ _,
      patchedAgent_stable d5 "foundry" profile mode tn fa⟩

theorem setup_pipeline_stable (input : Obj) (url : String) (tn : List String)
    (profile : String) (la fa : List String) :
    DocStable (patchConfigForSetup input url tn profile la fa).data profile PatchMode.setup tn ∧
    (∃ M, olookup (patchConfigForSetup input url tn profile la fa).data "mcp" =
        some (JValue.vObj M) ∧ (olookup M "palantir-mcp").isSome) := by
  rw [patchConfigForSetup_data_unfold]
  set d1 := schemaStep input with hd1
  set d2 := removeUnsupportedPalantirMeta d1 with hd2
  set d3 := ensureGlobalDeny d2 with hd3
  set d4 := (ensureMcpServer d3 url).1 with hd4
  set d5 := (patchAgentFull d4 "foundry-librarian" profile PatchMode.setup tn la).1 with hd5
  set d6 := (patchAgentFull d5 "foundry" profile PatchMode.setup tn fa).1 with hd6
  constructor
  · constructor
    · rw [hd6, patchAgentFull_frame _ _ _ _ _ _ _ (by decide),
        hd5, patchAgentFull_frame _ _ _ _ _ _ _ (by decide),
        hd4, mcp_frame _ _ _ (by decide),
        hd3, deny_frame _ _ (by decide),
        hd2, removeMeta_frame _ _ (by decide)]
      exact schemaStep_isSome input
    · rw [hd6, patchAgentFull_frame _ _ _ _ _ _ _ (by decide),
        hd5, patchAgentFull_frame _ _ _ _ _ _ _ (by decide),
        hd4, mcp_frame _ _ _ (by decide),
        hd3, deny_frame _ _ (by decide)]
      exact removeMeta_none d1
    · refine ⟨oset (objAt d2 "tools") "palantir-mcp_*" (JValue.vBool false), ?_,
        olookup_oset_self _ _ _⟩
      rw [hd6, patchAgentFull_frame _ _ _ _ _ _ _ (by decide),
        hd5, patchAgentFull_frame _ _ _ _ _ _ _ (by decide),
        hd4, mcp_frame _ _ _ (by decide)]
      exact deny_tools d2
    · exact agent_stages_stable d4 profile PatchMode.setup tn la fa
  · obtain ⟨M, hM, hMs⟩ := mcp_after d3 url
    refine ⟨M, ?_, hMs⟩
    rw [hd6, patchAgentFull_frame _ _ _ _ _ _ _ (by decide),
      hd5, patchAgentFull_frame _ _ _ _ _ _ _ (by decide)]
    exact hM

theorem rescan_pipeline_stable (input : Obj) (tn : List String)
    (profile : String) (la fa : List String) :
    DocStable (patchConfigForRescan input tn profile la fa).data profile PatchMode.rescan tn := by
  rw [patchConfigForRescan_data_unfold]
  set d1 := schemaStep input with hd1
  set d2 := removeUnsupportedPalantirMeta d1 with hd2
  set d3 := ensureGlobalDeny d2 with hd3
  set d5 := (patchAgentFull d3 "foundry-librarian" profile PatchMode.rescan tn la).1 with hd5
  set d6 := (patchAgentFull d5 "foundry" profile PatchMode.rescan tn fa).1 with hd6
  constructor
  · rw [hd6, patchAgentFull_frame _ _ _ _ _ _ _ (by decide),
      hd5, patchAgentFull_frame _ _ _ _ _ _ _ (by decide),
      hd3, deny_frame _ _ (by decide),
      hd2, removeMeta_frame _ _ (by decide)]
    exact schemaStep_isSome input
  · rw [hd6, patchAgentFull_frame _ _ _ _ _ _ _ (by decide),
      hd5, patchAgentFull_frame _ _ _ _ _ _ _ (by decide),
      hd3, deny_frame _ _ (by decide)]
    exact removeMeta_none d1
  · refine ⟨oset (objAt d2 "tools") "palantir-mcp_*" (JValue.vBool false), ?_,
      olookup_oset_self _ _ _⟩
    rw [hd6, patchAgentFull_frame _ _ _ _ _ _ _ (by decide),
      hd5, patchAgentFull_frame _ _ _ _ _ _ _ (by decide)]
    exact deny_tools d2
  · exact agent_stages_stable d3 profile PatchMode.rescan tn la fa

theorem setup_stages_id (d : Obj) (url : String) (tn : List String)
    (profile : String) (la fa : List String)
    (hst : DocStable d profile PatchMode.setup tn)
    (hmcp : ∃ M, olookup d "mcp" = some (JValue.vObj M) ∧ (olookup M "palantir-mcp").isSome) :
    (patchConfigForSetup d url tn profile la fa).data = d := by
  obtain ⟨T, hT1, hT2⟩ := hst.tools_deny
  obtain ⟨M, hM1, hM2⟩ := hmcp
  obtain ⟨A, hA, ⟨L, hL, hLst⟩, ⟨F, hF, hFst⟩⟩ := hst.agents_stable
  rw [patchConfigForSetup_data_unfold,
    schemaStep_of_isSome d hst.schema_some, removeMeta_of_none d hst.meta_none,
    deny_of_stable d T hT1 hT2, mcp_of_stable d url M hM1 hM2,
    patchAgentFull_fst_of_stable d "foundry-librarian" profile PatchMode.setup tn la A L
      hA hL hLst,
    patchAgentFull_fst_of_stable d "foundry" profile PatchMode.setup tn fa A F hA hF hFst]

theorem rescan_stages_id (d : Obj) (tn : List String)
    (profile : String) (la fa : List String)
    (hst : DocStable d profile PatchMode.rescan tn) :
    (patchConfigForRescan d tn profile la fa).data = d := by
  obtain ⟨T, hT1, hT2⟩ := hst.tools_deny
  obtain ⟨A, hA, ⟨L, hL, hLst⟩, ⟨F, hF, hFst⟩⟩ := hst.agents_stable
  rw [patchConfigForRescan_data_unfold,
    schemaStep_of_isSome d hst.schema_some, removeMeta_of_none d hst.meta_none,
    deny_of_stable d T hT1 hT2,
    patchAgentFull_fst_of_stable d "foundry-librarian" profile PatchMode.rescan tn la A L
      hA hL hLst,
    patchAgentFull_fst_of_stable d "foundry" profile PatchMode.rescan tn fa A F hA hF hFst]

theorem patchConfigForSetup_data_idem (input : Obj) (url : String) (tn : List String)
    (profile : String) (la fa : List String) :
    (patchConfigForSetup (patchConfigForSetup input url tn profile la fa).data
        url tn profile la fa).data =
      (patchConfigForSetup input url tn profile la fa).data := by
  obtain ⟨hst, hmcp⟩ := setup_pipeline_stable input url tn profile la fa
  exact setup_stages_id _ url tn profile la fa hst hmcp

theorem patchConfigForRescan_data_idem (input : Obj) (tn : List String)
    (profile : String) (la fa : List String) :
    (patchConfigForRescan (patchConfigForRescan input tn profile la fa).data
        tn profile la fa).data =
      (patchConfigForRescan input tn profile la fa).data :=
  rescan_stages_id _ tn profile la fa (rescan_pipeline_stable input tn profile la fa)

/-! ### Lookup characterization of the legacy merge -/

theorem olookup_append (a b : Obj) (k : String) :
    olookup (a ++ b) k =
      match olookup a k with
      | some v => some v
      | none => olookup b k := by
  induction a with
  | nil => simp [olookup]
  | cons hd t ih =>
    by_cases h : hd.1 = k <;> simp [olookup, h, ih]

theorem mergeFields_lookup (t s : Obj) (k : String) :
    olookup (mergeFields t s) k =
      match olookup s k with
      | none => none
      | some sv =>
        some (match olookup t k with
          | none => sv
          | some tv =>
            match tv, sv with
            | JValue.vObj to2, JValue.vObj so2 =>
              JValue.vObj (mergeFields to2 so2 ++ to2.filter (fun kv => (olookup so2 kv.1).isNone))
            | _, _ => tv) := by
  induction s with
  | nil => rw [mergeFields]; rfl
  | cons hd rest ih =>
    obtain ⟨k0, sv⟩ := hd
    rw [mergeFields]
    by_cases h : k0 = k
    · subst h
      simp only [olookup]
      simp
    · simp only [olookup]
      rw [if_neg h, if_neg h]
      exact ih

theorem olookup_filter_sNone (t s : Obj) (k : String) :
    olookup (t.filter (fun kv => (olookup s kv.1).isNone)) k =
      if (olookup s k).isNone then olookup t k else none := by
  induction t with
  | nil => simp [olookup]
  | cons hd rest ih =>
    obtain ⟨k0, v0⟩ := hd
    by_cases h : k0 = k
    · subst h
      by_cases hp : (olookup s k0).isNone
      · rw [List.filter_cons_of_pos (by simpa using hp)]
        simp [olookup, hp]
      · rw [List.filter_cons_of_neg (by simpa using hp)]
        rw [ih]
        simp [hp]
    · by_cases hp : (olookup s k0).isNone
      · rw [List.filter_cons_of_pos (by simpa using hp)]
        simp only [olookup]
        rw [if_neg h, if_neg h]
        exact ih
      · rw [List.filter_cons_of_neg (by simpa using hp)]
        rw [ih]
        simp only [olookup]
        rw [if_neg h]

theorem mergeObjs_lookup (t s : Obj) (k : String) :
    olookup (mergeObjs t s) k =
      match olookup t k, olookup s k with
      | some (JValue.vObj to2), some (JValue.vObj so2) => some (JValue.vObj (mergeObjs to2 so2))
      | some tv, some _ => some tv
      | some tv, none => some tv
      | none, some sv => some sv
      | none, none => none := by
  rw [mergeObjs, olookup_append, mergeFields_lookup, olookup_filter_sNone]
  cases ht : olookup t k with
  | none =>
    cases hs : olookup s k with
    | none => rfl
    | some sv => cases sv <;> rfl
  | some tv =>
    cases hs : olookup s k with
    | none => cases tv <;> rfl
    | some sv => cases tv <;> cases sv <;> rfl

/-! ### Driver lemmas: server preservation, creation, warnings, credential flow -/

theorem objAt_congr (a b : Obj) (k : String) (h : olookup a k = olookup b k) :
    objAt a k = objAt b k := by
  rw [objAt, objAt, h]

theorem patchConfigForSetup_mcp_lookup (input : Obj) (url : String) (tn : List String)
    (profile : String) (la fa : List String) :
    olookup (patchConfigForSetup input url tn profile la fa).data "mcp" =
      olookup ((ensureMcpServer (ensureGlobalDeny (removeUnsupportedPalantirMeta
        (schemaStep input))) url).1) "mcp" := by
  rw [patchConfigForSetup_data_unfold,
    patchAgentFull_frame _ _ _ _ _ _ _ (by decide),
    patchAgentFull_frame _ _ _ _ _ _ _ (by decide)]

theorem pre_mcp_stages_mcp (input : Obj) :
    olookup (ensureGlobalDeny (removeUnsupportedPalantirMeta (schemaStep input))) "mcp" =
      olookup input "mcp" := by
  rw [deny_frame _ _ (by decide), removeMeta_frame _ _ (by decide),
    schemaStep_frame _ _ (by decide)]

theorem patchConfigForSetup_mcp_preserved (input : Obj) (url : String) (tn : List String)
    (profile : String) (la fa : List String) (M : Obj) (e : JValue)
    (hM : olookup input "mcp" = some (JValue.vObj M))
    (he : olookup M "palantir-mcp" = some e) :
    olookup (objAt (patchConfigForSetup input url tn profile la fa).data "mcp")
      "palantir-mcp" = some e := by
  have h3 : olookup (ensureGlobalDeny (removeUnsupportedPalantirMeta (schemaStep input)))
      "mcp" = some (JValue.vObj M) := by
    rw [pre_mcp_stages_mcp]; exact hM
  have h4 : olookup ((ensureMcpServer (ensureGlobalDeny (removeUnsupportedPalantirMeta
      (schemaStep input))) url).1) "mcp" = some (JValue.vObj M) := by
    simp only [ensureMcpServer]
    rw [objAt_eq_of_lookup _ "mcp" M h3, if_pos (by rw [he]; rfl)]
    exact olookup_oset_self _ "mcp" _
  rw [objAt_eq_of_lookup _ "mcp" M (by rw [patchConfigForSetup_mcp_lookup]; exact h4)]
  exact he

theorem patchConfigForSetup_mcp_created (input : Obj) (url : String) (tn : List String)
    (profile : String) (la fa : List String)
    (habs : olookup (objAt input "mcp") "palantir-mcp" = none) :
    olookup (objAt (patchConfigForSetup input url tn profile la fa).data "mcp")
      "palantir-mcp" = some (serverDescriptor url) := by
  have hobj : objAt (ensureGlobalDeny (removeUnsupportedPalantirMeta (schemaStep input)))
      "mcp" = objAt input "mcp" :=
    objAt_congr _ _ "mcp" (pre_mcp_stages_mcp input)
  have h4 : olookup ((ensureMcpServer (ensureGlobalDeny (removeUnsupportedPalantirMeta
      (schemaStep input))) url).1) "mcp" =
      some (JValue.vObj (oset (objAt input "mcp") "palantir-mcp" (serverDescriptor url))) := by
    simp only [ensureMcpServer]
    rw [hobj, if_neg (by rw [habs]; simp)]
    exact olookup_oset_self _ "mcp" _
  rw [objAt_eq_of_lookup _ "mcp" _ (by rw [patchConfigForSetup_mcp_lookup]; exact h4)]
  exact olookup_oset_self _ _ _

theorem setupSliceWarnings_mismatch (norm : String → Option NormOk) (merged : Obj)
    (argNorm : NormOk) (patch : PatchResult) (raw : String) (e : NormOk)
    (hex : extractFoundryApiUrlFromMcpConfig merged = some raw)
    (hn : norm raw = some e) (hne : e.url ≠ argNorm.url) :
    mcpMismatchWarning e.url ∈ setupSliceWarnings norm merged argNorm patch := by
  simp only [setupSliceWarnings, hex, hn]
  rw [if_neg hne]
  exact List.mem_append.mpr (Or.inr (List.mem_singleton.mpr rfl))

theorem setupSlice_token_independent (norm : String → Option NormOk) (merged : Obj)
    (argNorm : NormOk) (tn : List String) (profile : String) (la fa : List String)
    (t1 t2 : String) (h1 : t1 ≠ "") (h2 : t2 ≠ "") :
    setupSlice norm (some t1) merged argNorm tn profile la fa =
      setupSlice norm (some t2) merged argNorm tn profile la fa := by
  rw [setupSlice, setupSlice, if_neg (by simp [h1]), if_neg (by simp [h2])]

/-! ### Accessors for the managed agents and per-field preservation -/

def agentObj (d : Obj) (agentName : String) : Obj :=
  objAt (objAt d "agent") agentName

def agentField (d : Obj) (agentName f : String) : Option JValue :=
  olookup (agentObj d agentName) f

def agentToolsVal (d : Obj) (agentName k : String) : Option JValue :=
  olookup (objAt (agentObj d agentName) "tools") k

theorem ensureAgentDefaults_keep_mode (ag : Obj) (n : String) (m : String)
    (h : olookup ag "mode" = some (JValue.vStr m)) :
    olookup (ensureAgentDefaults ag n) "mode" = some (JValue.vStr m) := by
  rw [ensureAgentDefaults, fillStrField_frame _ _ _ _ (by decide),
    fillStrField_frame _ _ _ _ (by decide), fillBoolField_frame _ _ _ _ (by decide),
    fillStrField_keep ag "mode" _ m h]
  exact h

theorem ensureAgentDefaults_keep_hidden (ag : Obj) (n : String) (b : Bool)
    (h : olookup ag "hidden" = some (JValue.vBool b)) :
    olookup (ensureAgentDefaults ag n) "hidden" = some (JValue.vBool b) := by
  rw [ensureAgentDefaults, fillStrField_frame _ _ _ _ (by decide),
    fillStrField_frame _ _ _ _ (by decide), fillBoolField_keep _ "hidden" _ b (by
      rw [fillStrField_frame _ _ _ _ (by decide)]; exact h),
    fillStrField_frame _ _ _ _ (by decide)]
  exact h

theorem ensureAgentDefaults_keep_prompt (ag : Obj) (n : String) (p : String)
    (h : olookup ag "prompt" = some (JValue.vStr p)) :
    olookup (ensureAgentDefaults ag n) "prompt" = some (JValue.vStr p) := by
  have h3 : olookup (fillStrField (fillBoolField (fillStrField ag "mode" "subagent")
      "hidden" false) "description" (defaultDescription n)) "prompt" =
      some (JValue.vStr p) := by
    rw [fillStrField_frame _ _ _ _ (by decide), fillBoolField_frame _ _ _ _ (by decide),
      fillStrField_frame _ _ _ _ (by decide)]
    exact h
  rw [ensureAgentDefaults, fillStrField_keep _ "prompt" _ p h3]
  exact h3

theorem ensureAgentDefaults_keep_descr (ag : Obj) (n : String) (s : String)
    (h : olookup ag "description" = some (JValue.vStr s)) :
    olookup (ensureAgentDefaults ag n) "description" = some (JValue.vStr s) := by
  have h2 : olookup (fillBoolField (fillStrField ag "mode" "subagent") "hidden" false)
      "description" = some (JValue.vStr s) := by
    rw [fillBoolField_frame _ _ _ _ (by decide), fillStrField_frame _ _ _ _ (by decide)]
    exact h
  rw [ensureAgentDefaults, fillStrField_frame _ _ _ _ (by decide),
    fillStrField_keep _ "description" _ s h2]
  exact h2

theorem patchedAgent_keep_mode (d : Obj) (n profile : String) (mode : PatchMode)
    (tn allow : List String) (m : String)
    (h : olookup (agentObj d n) "mode" = some (JValue.vStr m)) :
    olookup (patchedAgent d n profile mode tn allow) "mode" = some (JValue.vStr m) := by
  simp only [patchedAgent]
  rw [olookup_oset_ne _ _ _ _ (by decide), annotate_frame _ _ _ _ _ (by decide)]
  exact ensureAgentDefaults_keep_mode _ n m h

theorem patchedAgent_keep_hidden (d : Obj) (n profile : String) (mode : PatchMode)
    (tn allow : List String) (b : Bool)
    (h : olookup (agentObj d n) "hidden" = some (JValue.vBool b)) :
    olookup (patchedAgent d n profile mode tn allow) "hidden" = some (JValue.vBool b) := by
  simp only [patchedAgent]
  rw [olookup_oset_ne _ _ _ _ (by decide), annotate_frame _ _ _ _ _ (by decide)]
  exact ensureAgentDefaults_keep_hidden _ n b h

theorem patchedAgent_keep_prompt (d : Obj) (n profile : String) (mode : PatchMode)
    (tn allow : List String) (p : String)
    (h : olookup (agentObj d n) "prompt" = some (JValue.vStr p)) :
    olookup (patchedAgent d n profile mode tn allow) "prompt" = some (JValue.vStr p) := by
  simp only [patchedAgent]
  rw [olookup_oset_ne _ _ _ _ (by decide), annotate_frame _ _ _ _ _ (by decide)]
  exact ensureAgentDefaults_keep_prompt _ n p h

theorem patchedAgent_tools_keep_rescan (d : Obj) (n profile : String)
    (tn allow : List String) (k : String) (v : JValue)
    (h : olookup (objAt (agentObj d n) "tools") k = some v) :
    olookup (objAt (patchedAgent d n profile PatchMode.rescan tn allow) "tools") k
      = some v := by
  rw [agentObj] at h
  simp only [patchedAgent]
  have htools : olookup (annotateAgentDescription (ensureAgentDefaults
      (objAt (objAt d "agent") n) n) n profile PatchMode.rescan) "tools" =
      olookup (objAt (objAt d "agent") n) "tools" := by
    rw [annotate_frame _ _ _ _ _ (by decide),
      ensureAgentDefaults_frame _ _ _ (by decide) (by decide) (by decide) (by decide)]
  rw [objAt_eq_of_lookup _ "tools" _ (olookup_oset_self _ _ _)]
  rw [applyToolToggles_fst]
  apply foldl_toggle_rescan_preserve
  apply ensureDocsToolDefaults_keep
  rw [objAt_congr _ _ "tools" htools]
  exact h

theorem patchedAgent_descr_keep_rescan (d : Obj) (n profile : String)
    (tn allow : List String) (s : String)
    (h : olookup (agentObj d n) "description" = some (JValue.vStr s))
    (h1 : containsSub s genNotePfx = false)
    (h2 : trimS s ≠ defaultDescription n) :
    olookup (patchedAgent d n profile PatchMode.rescan tn allow) "description" =
      some (JValue.vStr s) := by
  rw [agentObj] at h
  simp only [patchedAgent]
  have hd1 : olookup (ensureAgentDefaults (objAt (objAt d "agent") n) n) "description" =
      some (JValue.vStr s) := ensureAgentDefaults_keep_descr _ n s h
  have hs : shouldAnnotateB s n PatchMode.rescan = false := by
    rw [shouldAnnotateB]
    simp only [h1]
    simp [h2]
  rw [olookup_oset_ne _ _ _ _ (by decide),
    annotate_of_not_should _ n profile PatchMode.rescan s hd1 hs]
  exact hd1

theorem patchedAgent_descr_setup (d : Obj) (n profile : String)
    (tn allow : List String) (s : String)
    (h : olookup (agentObj d n) "description" = some (JValue.vStr s)) :
    olookup (patchedAgent d n profile PatchMode.setup tn allow) "description" =
      some (JValue.vStr (joinNote (stripGeneratedNote s) profile)) := by
  rw [agentObj] at h
  simp only [patchedAgent]
  have hd1 : olookup (ensureAgentDefaults (objAt (objAt d "agent") n) n) "description" =
      some (JValue.vStr s) := ensureAgentDefaults_keep_descr _ n s h
  have hs : shouldAnnotateB s n PatchMode.setup = true := by
    rw [shouldAnnotateB]
    simp
  rw [olookup_oset_ne _ _ _ _ (by decide),
    annotate_of_should _ n profile PatchMode.setup s hd1 hs, olookup_oset_self]

/-! ### Transporting agent lookups through the pipelines -/

def setupPre (input : Obj) (url : String) : Obj :=
  (ensureMcpServer (ensureGlobalDeny (removeUnsupportedPalantirMeta (schemaStep input))) url).1

def rescanPre (input : Obj) : Obj :=
  ensureGlobalDeny (removeUnsupportedPalantirMeta (schemaStep input))

theorem setupPre_agentObj (input : Obj) (url : String) (n : String) :
    agentObj (setupPre input url) n = agentObj input n := by
  have h : olookup (setupPre input url) "agent" = olookup input "agent" := by
    rw [setupPre, mcp_frame _ _ _ (by decide), deny_frame _ _ (by decide),
      removeMeta_frame _ _ (by decide), schemaStep_frame _ _ (by decide)]
  rw [agentObj, agentObj, objAt_congr _ _ "agent" h]

theorem rescanPre_agentObj (input : Obj) (n : String) :
    agentObj (rescanPre input) n = agentObj input n := by
  have h : olookup (rescanPre input) "agent" = olookup input "agent" := by
    rw [rescanPre, deny_frame _ _ (by decide),
      removeMeta_frame _ _ (by decide), schemaStep_frame _ _ (by decide)]
  rw [agentObj, agentObj, objAt_congr _ _ "agent" h]

theorem patchAgentFull_agentObj_other (d : Obj) (n' profile : String) (mode : PatchMode)
    (tn allow : List String) (n : String) (h : n ≠ n') :
    agentObj (patchAgentFull d n' profile mode tn allow).1 n = agentObj d n := by
  rw [agentObj, agentObj,
    objAt_eq_of_lookup _ "agent" _ (patchAgentFull_agent d n' profile mode tn allow)]
  exact objAt_congr _ _ n (olookup_oset_ne _ _ _ _ h)

theorem patchAgentFull_agentObj_self (d : Obj) (n profile : String) (mode : PatchMode)
    (tn allow : List String) :
    agentObj (patchAgentFull d n profile mode tn allow).1 n =
      patchedAgent d n profile mode tn allow := by
  rw [agentObj,
    objAt_eq_of_lookup _ "agent" _ (patchAgentFull_agent d n profile mode tn allow)]
  exact objAt_eq_of_lookup _ n _ (olookup_oset_self _ _ _)

theorem setup_agentObj_lib (input : Obj) (url : String) (tn : List String)
    (profile : String) (la fa : List String) :
    agentObj (patchConfigForSetup input url tn profile la fa).data "foundry-librarian" =
      patchedAgent (setupPre input url) "foundry-librarian" profile PatchMode.setup tn la := by
  have hdata : (patchConfigForSetup input url tn profile la fa).data =
      (patchAgentFull (patchAgentFull (setupPre input url) "foundry-librarian" profile
        PatchMode.setup tn la).1 "foundry" profile PatchMode.setup tn fa).1 := rfl
  rw [hdata, patchAgentFull_agentObj_other _ _ _ _ _ _ _ (by decide),
    patchAgentFull_agentObj_self]

theorem setup_agentObj_fdy (input : Obj) (url : String) (tn : List String)
    (profile : String) (la fa : List String) :
    agentObj (patchConfigForSetup input url tn profile la fa).data "foundry" =
      patchedAgent ((patchAgentFull (setupPre input url) "foundry-librarian" profile
        PatchMode.setup tn la).1) "foundry" profile PatchMode.setup tn fa := by
  have hdata : (patchConfigForSetup input url tn profile la fa).data =
      (patchAgentFull (patchAgentFull (setupPre input url) "foundry-librarian" profile
        PatchMode.setup tn la).1 "foundry" profile PatchMode.setup tn fa).1 := rfl
  rw [hdata, patchAgentFull_agentObj_self]

theorem setup_agentObj_fdy_pre (input : Obj) (url : String) (tn : List String)
    (profile : String) (la : List String) :
    agentObj ((patchAgentFull (setupPre input url) "foundry-librarian" profile
      PatchMode.setup tn la).1) "foundry" = agentObj input "foundry" := by
  rw [patchAgentFull_agentObj_other _ _ _ _ _ _ _ (by decide), setupPre_agentObj]

theorem rescan_agentObj_lib (input : Obj) (tn : List String)
    (profile : String) (la fa : List String) :
    agentObj (patchConfigForRescan input tn profile la fa).data "foundry-librarian" =
      patchedAgent (rescanPre input) "foundry-librarian" profile PatchMode.rescan tn la := by
  have hdata : (patchConfigForRescan input tn profile la fa).data =
      (patchAgentFull (patchAgentFull (rescanPre input) "foundry-librarian" profile
        PatchMode.rescan tn la).1 "foundry" profile PatchMode.rescan tn fa).1 := rfl
  rw [hdata, patchAgentFull_agentObj_other _ _ _ _ _ _ _ (by decide),
    patchAgentFull_agentObj_self]

theorem rescan_agentObj_fdy (input : Obj) (tn : List String)
    (profile : String) (la fa : List String) :
    agentObj (patchConfigForRescan input tn profile la fa).data "foundry" =
      patchedAgent ((patchAgentFull (rescanPre input) "foundry-librarian" profile
        PatchMode.rescan tn la).1) "foundry" profile PatchMode.rescan tn fa := by
  have hdata : (patchConfigForRescan input tn profile la fa).data =
      (patchAgentFull (patchAgentFull (rescanPre input) "foundry-librarian" profile
        PatchMode.rescan tn la).1 "foundry" profile PatchMode.rescan tn fa).1 := rfl
  rw [hdata, patchAgentFull_agentObj_self]

theorem rescan_agentObj_fdy_pre (input : Obj) (tn : List String)
    (profile : String) (la : List String) :
    agentObj ((patchAgentFull (rescanPre input) "foundry-librarian" profile
      PatchMode.rescan tn la).1) "foundry" = agentObj input "foundry" := by
  rw [patchAgentFull_agentObj_other _ _ _ _ _ _ _ (by decide), rescanPre_agentObj]

/-- One rescan run preserves any present key of a managed agent's tools map. -/
theorem rescan_preserves_agentToolsVal (d : Obj) (tn : List String) (profile : String)
    (la fa : List String) (agentName k : String) (v : JValue)
    (hname : agentName = "foundry-librarian" ∨ agentName = "foundry")
    (h : agentToolsVal d agentName k = some v) :
    agentToolsVal (patchConfigForRescan d tn profile la fa).data agentName k = some v := by
  rcases hname with hn | hn
  · subst hn
    rw [agentToolsVal, rescan_agentObj_lib]
    apply patchedAgent_tools_keep_rescan
    rw [rescanPre_agentObj]
    exact h
  · subst hn
    rw [agentToolsVal, rescan_agentObj_fdy]
    apply patchedAgent_tools_keep_rescan
    rw [rescan_agentObj_fdy_pre]
    exact h

structure RescanOpts where
  toolNames : List String
  profile : String
  librarianAllow : List String
  foundryAllow : List String

/-- Repeated rescans, each with its own tool list, profile and allowlist. -/
def rescanIter (d : Obj) : List RescanOpts → Obj
  | [] => d
  | o :: rest =>
    rescanIter (patchConfigForRescan d o.toolNames o.profile o.librarianAllow
      o.foundryAllow).data rest

theorem rescanIter_preserves_agentToolsVal (opts : List RescanOpts) (d : Obj)
    (agentName k : String) (v : JValue)
    (hname : agentName = "foundry-librarian" ∨ agentName = "foundry")
    (h : agentToolsVal d agentName k = some v) :
    agentToolsVal (rescanIter d opts) agentName k = some v := by
  induction opts generalizing d with
  | nil => exact h
  | cons o rest ih =>
    exact ih _ (rescan_preserves_agentToolsVal d o.toolNames o.profile o.librarianAllow
      o.foundryAllow agentName k v hname h)

/-! ## The claims -/

/-- C1: Reconciliation is idempotent: applying `patchConfigForSetup` (or
`patchConfigForRescan`) to its own output with the same tool list, profile and
allowlists and serializing with `stringifyJsonc` yields a string byte-equal to
serializing the first output — a second run produces no further changes. -/
theorem c1_reconciliation_idempotent (input : Obj) (url : String) (tn : List String)
    (profile : String) (la fa : List String) :
    stringifyJsonc (patchConfigForSetup (patchConfigForSetup input url tn profile la fa).data
        url tn profile la fa).data =
      stringifyJsonc (patchConfigForSetup input url tn profile la fa).data ∧
    stringifyJsonc (patchConfigForRescan (patchConfigForRescan input tn profile la fa).data
        tn profile la fa).data =
      stringifyJsonc (patchConfigForRescan input tn profile la fa).data :=
  ⟨congrArg stringifyJsonc (patchConfigForSetup_data_idem input url tn profile la fa),
   congrArg stringifyJsonc (patchConfigForRescan_data_idem input tn profile la fa)⟩

/-- C2: Toggle monotonicity under rescan: once a managed agent's tools map
contains a toggle key, any number of subsequent `patchConfigForRescan` runs —
each with arbitrary tool list, profile and allowlists — leaves its value
unchanged, even when the allowlist decision differs from the stored value. -/
theorem c2_toggle_monotonic_under_rescan (d : Obj) (agentName k : String) (v : JValue)
    (hname : agentName = "foundry-librarian" ∨ agentName = "foundry")
    (h : agentToolsVal d agentName k = some v) (opts : List RescanOpts) :
    agentToolsVal (rescanIter d opts) agentName k = some v :=
  rescanIter_preserves_agentToolsVal opts d agentName k v hname h

def c2Doc : Obj := [("agent", JValue.vObj [("foundry", JValue.vObj
  [("tools", JValue.vObj [("palantir-mcp_x", JValue.vBool true)])])])]

theorem c2_witness :
    (("foundry" : String) = "foundry-librarian" ∨ ("foundry" : String) = "foundry") ∧
    agentToolsVal c2Doc "foundry" "palantir-mcp_x" = some (JValue.vBool true) ∧
    agentToolsVal (rescanIter c2Doc
        [⟨["x"], "jupyter", [], []⟩, ⟨["x", "y"], "unknown", [], []⟩])
      "foundry" "palantir-mcp_x" = some (JValue.vBool true) :=
  ⟨Or.inr rfl, rfl,
   c2_toggle_monotonic_under_rescan c2Doc "foundry" "palantir-mcp_x" (JValue.vBool true)
     (Or.inr rfl) rfl _⟩

def c3Doc : Obj := [("tools", JValue.vObj [("palantir-mcp_*", JValue.vBool true)])]

/-- C3 counterexample: the claim says rescan never touches an existing
`palantir-mcp_*` entry; but on a document storing `true` there,
`patchConfigForRescan` forces the value back to `false`. -/
theorem c3_counterexample :
    olookup (objAt c3Doc "tools") "palantir-mcp_*" = some (JValue.vBool true) ∧
    olookup (objAt (patchConfigForRescan c3Doc [] "unknown" [] []).data "tools")
      "palantir-mcp_*" = some (JValue.vBool false) ∧
    JValue.vBool false ≠ JValue.vBool true :=
  ⟨rfl, rfl, fun h => by injection h with h1; exact Bool.noConfusion h1⟩

/-- C3 (amended): both `patchConfigForSetup` and `patchConfigForRescan`
forcibly set the tools wildcard-deny entry `palantir-mcp_*` to `false` on
every run, whether or not it is already present. -/
theorem c3_amended_global_deny_forced (input : Obj) (url : String) (tn : List String)
    (profile : String) (la fa : List String) :
    olookup (objAt (patchConfigForSetup input url tn profile la fa).data "tools")
      "palantir-mcp_*" = some (JValue.vBool false) ∧
    olookup (objAt (patchConfigForRescan input tn profile la fa).data "tools")
      "palantir-mcp_*" = some (JValue.vBool false) := by
  constructor
  · have hs : olookup (patchConfigForSetup input url tn profile la fa).data "tools" =
        some (JValue.vObj (oset (objAt (removeUnsupportedPalantirMeta (schemaStep input))
          "tools") "palantir-mcp_*" (JValue.vBool false))) := by
      rw [patchConfigForSetup_data_unfold,
        patchAgentFull_frame _ _ _ _ _ _ _ (by decide),
        patchAgentFull_frame _ _ _ _ _ _ _ (by decide),
        mcp_frame _ _ _ (by decide)]
      exact deny_tools _
    rw [objAt_eq_of_lookup _ "tools" _ hs]
    exact olookup_oset_self _ _ _
  · have hs : olookup (patchConfigForRescan input tn profile la fa).data "tools" =
        some (JValue.vObj (oset (objAt (removeUnsupportedPalantirMeta (schemaStep input))
          "tools") "palantir-mcp_*" (JValue.vBool false))) := by
      rw [patchConfigForRescan_data_unfold,
        patchAgentFull_frame _ _ _ _ _ _ _ (by decide),
        patchAgentFull_frame _ _ _ _ _ _ _ (by decide)]
      exact deny_tools _
    rw [objAt_eq_of_lookup _ "tools" _ hs]
    exact olookup_oset_self _ _ _

/-- C4: Server descriptor immutability with mismatch warning: an existing
`mcp.palantir-mcp` entry (with its custom command) is left exactly unchanged
by setup with a different supplied URL, and the driver's warnings include the
existing-server-points-elsewhere warning.  `normalizeFoundryBaseUrl` lives in
`normalize-url.ts`, outside the modelled sources, so the statement holds for
every normalization function `norm`. -/
theorem c4_server_descriptor_immutability (norm : String → Option NormOk) (merged : Obj)
    (argNorm : NormOk) (tn : List String) (profile : String) (la fa : List String)
    (M : Obj) (entry : JValue) (raw : String) (e : NormOk)
    (hM : olookup merged "mcp" = some (JValue.vObj M))
    (he : olookup M "palantir-mcp" = some entry)
    (hex : extractFoundryApiUrlFromMcpConfig merged = some raw)
    (hn : norm raw = some e) (hne : e.url ≠ argNorm.url) :
    olookup (objAt (patchConfigForSetup merged argNorm.url tn profile la fa).data "mcp")
        "palantir-mcp" = some entry ∧
    mcpMismatchWarning e.url ∈ setupSliceWarnings norm merged argNorm
      (patchConfigForSetup merged argNorm.url tn profile la fa) :=
  ⟨patchConfigForSetup_mcp_preserved merged argNorm.url tn profile la fa M entry hM he,
   setupSliceWarnings_mismatch norm merged argNorm _ raw e hex hn hne⟩

def c4Merged : Obj := [("mcp", JValue.vObj [("palantir-mcp", JValue.vObj
  [("type", JValue.vStr "local"),
   ("command", JValue.vArr [JValue.vStr "custom", JValue.vStr "--foundry-api-url",
     JValue.vStr "https://old.example"])])])]

def c4Entry : JValue := JValue.vObj
  [("type", JValue.vStr "local"),
   ("command", JValue.vArr [JValue.vStr "custom", JValue.vStr "--foundry-api-url",
     JValue.vStr "https://old.example"])]

def c4Norm : String → Option NormOk := fun s => some ⟨s, []⟩

def c4ArgNorm : NormOk := ⟨"https://new.example", []⟩

theorem c4_witness :
    olookup c4Merged "mcp" = some (JValue.vObj [("palantir-mcp", c4Entry)]) ∧
    extractFoundryApiUrlFromMcpConfig c4Merged = some "https://old.example" ∧
    (("https://old.example" : String) ≠ c4ArgNorm.url) ∧
    olookup (objAt (patchConfigForSetup c4Merged c4ArgNorm.url [] "unknown" [] []).data "mcp")
        "palantir-mcp" = some c4Entry ∧
    mcpMismatchWarning "https://old.example" ∈ setupSliceWarnings c4Norm c4Merged c4ArgNorm
      (patchConfigForSetup c4Merged c4ArgNorm.url [] "unknown" [] []) := by
  have h := c4_server_descriptor_immutability c4Norm c4Merged c4ArgNorm [] "unknown" [] []
    [("palantir-mcp", c4Entry)] c4Entry "https://old.example" ⟨"https://old.example", []⟩
    rfl rfl rfl rfl (by decide)
  exact ⟨rfl, rfl, by decide, h.1, h.2⟩

/-- C5: Toggle keys are generated from the deduplicated, lexicographically
sorted tool-name list: for `["b","a","a"]` exactly one `palantir-mcp_a` key is
written, before `palantir-mcp_b`; and the generated key sequence depends only
on the underlying set of names. -/
theorem c5_sorted_dedup_key_generation :
    (applyToolToggles [] ["b", "a", "a"] [] PatchMode.setup).1 =
      [("palantir-mcp_a", JValue.vBool false), ("palantir-mcp_b", JValue.vBool false)] ∧
    ∀ l₁ l₂ : List String, l₁.toFinset = l₂.toFinset →
      (sortedToolNames l₁).map toolKey = (sortedToolNames l₂).map toolKey :=
  ⟨rfl, fun l₁ l₂ h =>
    congrArg (List.map toolKey) (sortedToolNames_eq_of_same_members l₁ l₂ h)⟩

theorem c5_witness :
    (["b", "a"] : List String).toFinset = (["a", "b", "a"] : List String).toFinset ∧
    (sortedToolNames ["b", "a"]).map toolKey = (sortedToolNames ["a", "b", "a"]).map toolKey :=
  ⟨by decide, c5_sorted_dedup_key_generation.2 ["b", "a"] ["a", "b", "a"] (by decide)⟩

def c6Doc : Obj := [("agent", JValue.vObj [("foundry", JValue.vObj
  [("description", JValue.vStr "custom")])])]

/-- C6 counterexample: the claim says none of the four fields `mode`,
`hidden`, `description`, `prompt` is ever overwritten, but `patchConfigForSetup`
rewrites a user-supplied custom `description`, appending the generated note. -/
theorem c6_counterexample :
    agentField c6Doc "foundry" "description" = some (JValue.vStr "custom") ∧
    agentField (patchConfigForSetup c6Doc "u" [] "prof" [] []).data "foundry" "description" =
      some (JValue.vStr ("custom | Generated by opencode-palantir /setup-palantir-mcp. Profile: prof. Edit palantir-mcp_* tool flags below to reject tools.")) ∧
    ("custom | Generated by opencode-palantir /setup-palantir-mcp. Profile: prof. Edit palantir-mcp_* tool flags below to reject tools." : String) ≠ "custom" :=
  ⟨rfl, rfl, by decide⟩

/-- C6 (amended): user-supplied values of the expected type in `mode`,
`hidden` and `prompt` are never overwritten by either `patchConfigForSetup` or
`patchConfigForRescan`; only `description` may be rewritten (setup appends or
refreshes the generated note there). -/
theorem c6_amended_typed_fields_never_overwritten (input : Obj) (url : String)
    (tn : List String) (profile : String) (la fa : List String) (agentName : String)
    (hname : agentName = "foundry-librarian" ∨ agentName = "foundry") :
    (∀ m, agentField input agentName "mode" = some (JValue.vStr m) →
      agentField (patchConfigForSetup input url tn profile la fa).data agentName "mode" =
        some (JValue.vStr m) ∧
      agentField (patchConfigForRescan input tn profile la fa).data agentName "mode" =
        some (JValue.vStr m)) ∧
    (∀ b, agentField input agentName "hidden" = some (JValue.vBool b) →
      agentField (patchConfigForSetup input url tn profile la fa).data agentName "hidden" =
        some (JValue.vBool b) ∧
      agentField (patchConfigForRescan input tn profile la fa).data agentName "hidden" =
        some (JValue.vBool b)) ∧
    (∀ p, agentField input agentName "prompt" = some (JValue.vStr p) →
      agentField (patchConfigForSetup input url tn profile la fa).data agentName "prompt" =
        some (JValue.vStr p) ∧
      agentField (patchConfigForRescan input tn profile la fa).data agentName "prompt" =
        some (JValue.vStr p)) := by
  rcases hname with hn | hn
  · subst hn
    refine ⟨fun m hm => ⟨?_, ?_⟩, fun b hb => ⟨?_, ?_⟩, fun p hp => ⟨?_, ?_⟩⟩
    · rw [agentField, setup_agentObj_lib]
      apply patchedAgent_keep_mode
      rw [setupPre_agentObj]
      exact hm
    · rw [agentField, rescan_agentObj_lib]
      apply patchedAgent_keep_mode
      rw [rescanPre_agentObj]
      exact hm
    · rw [agentField, setup_agentObj_lib]
      apply patchedAgent_keep_hidden
      rw [setupPre_agentObj]
      exact hb
    · rw [agentField, rescan_agentObj_lib]
      apply patchedAgent_keep_hidden
      rw [rescanPre_agentObj]
      exact hb
    · rw [agentField, setup_agentObj_lib]
      apply patchedAgent_keep_prompt
      rw [setupPre_agentObj]
      exact hp
    · rw [agentField, rescan_agentObj_lib]
      apply patchedAgent_keep_prompt
      rw [rescanPre_agentObj]
      exact hp
  · subst hn
    refine ⟨fun m hm => ⟨?_, ?_⟩, fun b hb => ⟨?_, ?_⟩, fun p hp => ⟨?_, ?_⟩⟩
    · rw [agentField, setup_agentObj_fdy]
      apply patchedAgent_keep_mode
      rw [setup_agentObj_fdy_pre]
      exact hm
    · rw [agentField, rescan_agentObj_fdy]
      apply patchedAgent_keep_mode
      rw [rescan_agentObj_fdy_pre]
      exact hm
    · rw [agentField, setup_agentObj_fdy]
      apply patchedAgent_keep_hidden
      rw [setup_agentObj_fdy_pre]
      exact hb
    · rw [agentField, rescan_agentObj_fdy]
      apply patchedAgent_keep_hidden
      rw [rescan_agentObj_fdy_pre]
      exact hb
    · rw [agentField, setup_agentObj_fdy]
      apply patchedAgent_keep_prompt
      rw [setup_agentObj_fdy_pre]
      exact hp
    · rw [agentField, rescan_agentObj_fdy]
      apply patchedAgent_keep_prompt
      rw [rescan_agentObj_fdy_pre]
      exact hp

def c6wDoc : Obj := [("agent", JValue.vObj [("foundry-librarian", JValue.vObj
  [("mode", JValue.vStr "primary"), ("hidden", JValue.vBool true),
   ("prompt", JValue.vStr "my prompt")])])]

theorem c6_witness :
    (("foundry-librarian" : String) = "foundry-librarian" ∨
      ("foundry-librarian" : String) = "foundry") ∧
    agentField c6wDoc "foundry-librarian" "prompt" = some (JValue.vStr "my prompt") ∧
    agentField (patchConfigForSetup c6wDoc "u" ["t"] "prof" [] []).data "foundry-librarian"
      "prompt" = some (JValue.vStr "my prompt") ∧
    agentField (patchConfigForRescan c6wDoc ["t"] "prof" [] []).data "foundry-librarian"
      "prompt" = some (JValue.vStr "my prompt") := by
  have h := (c6_amended_typed_fields_never_overwritten c6wDoc "u" ["t"] "prof" [] []
    "foundry-librarian" (Or.inl rfl)).2.2 "my prompt" rfl
  exact ⟨Or.inl rfl, rfl, h.1, h.2⟩

def mcpEnvironment (d : Obj) : Obj :=
  objAt (objAt (objAt d "mcp") "palantir-mcp") "environment"

def c7Doc : Obj := [("mcp", JValue.vObj [("palantir-mcp", JValue.vObj
  [("type", JValue.vStr "local"), ("command", JValue.vArr [JValue.vStr "custom"]),
   ("environment", JValue.vObj [("FOUNDRY_TOKEN", JValue.vStr "secret-value")])])])]

/-- C7 counterexample: the claim says the produced document's managed-server
environment map holds only the placeholder, but a pre-existing server entry is
preserved verbatim, including an environment value that is not the
placeholder. -/
theorem c7_counterexample :
    olookup (mcpEnvironment (patchConfigForSetup c7Doc "u" [] "p" [] []).data)
      "FOUNDRY_TOKEN" = some (JValue.vStr "secret-value") ∧
    ("secret-value" : String) ≠ tokenPlaceholder :=
  ⟨rfl, by decide⟩

/-- C7 (amended): the credential never reaches the document: the driver
slice's output is the same for any two present credential values, and any
server entry `patchConfigForSetup` itself creates carries an environment map
holding exactly the deferred-expansion placeholder; pre-existing entries are
preserved verbatim rather than rewritten. -/
theorem c7_amended_secret_never_persisted :
    (∀ (norm : String → Option NormOk) (merged : Obj) (argNorm : NormOk) (tn : List String)
        (profile : String) (la fa : List String) (t1 t2 : String),
      t1 ≠ "" → t2 ≠ "" →
      setupSlice norm (some t1) merged argNorm tn profile la fa =
        setupSlice norm (some t2) merged argNorm tn profile la fa) ∧
    (∀ (input : Obj) (url : String) (tn : List String) (profile : String)
        (la fa : List String),
      olookup (objAt input "mcp") "palantir-mcp" = none →
      olookup (objAt (patchConfigForSetup input url tn profile la fa).data "mcp")
          "palantir-mcp" = some (serverDescriptor url) ∧
      mcpEnvironment (patchConfigForSetup input url tn profile la fa).data =
        [("FOUNDRY_TOKEN", JValue.vStr tokenPlaceholder)]) := by
  constructor
  · intro norm merged argNorm tn profile la fa t1 t2 h1 h2
    exact setupSlice_token_independent norm merged argNorm tn profile la fa t1 t2 h1 h2
  · intro input url tn profile la fa habs
    have h1 := patchConfigForSetup_mcp_created input url tn profile la fa habs
    refine ⟨h1, ?_⟩
    rw [mcpEnvironment, objAt_eq_of_lookup _ "palantir-mcp" _ h1]
    rfl

theorem c7_witness :
    ("a" : String) ≠ "" ∧ ("b" : String) ≠ "" ∧
    setupSlice (fun _ => none) (some "a") [] ⟨"u", []⟩ [] "p" [] [] =
      setupSlice (fun _ => none) (some "b") [] ⟨"u", []⟩ [] "p" [] [] ∧
    olookup (objAt ([] : Obj) "mcp") "palantir-mcp" = none ∧
    mcpEnvironment (patchConfigForSetup [] "u" [] "p" [] []).data =
      [("FOUNDRY_TOKEN", JValue.vStr tokenPlaceholder)] :=
  ⟨by decide, by decide,
   c7_amended_secret_never_persisted.1 (fun _ => none) [] ⟨"u", []⟩ [] "p" [] [] "a" "b"
     (by decide) (by decide),
   rfl,
   (c7_amended_secret_never_persisted.2 [] "u" [] "p" [] [] rfl).2⟩

/-- C8: Setup and rescan apply toggles identically: for every agent tools map,
tool-name list and allow set, `applyToolToggles` returns the same tools map
and preserved flag in both modes — an already-present key is never overwritten
in either mode, so the mode affects only summary and warning wording. -/
theorem c8_apply_toggles_mode_equivalent (tools : Obj) (toolNames allow : List String) :
    applyToolToggles tools toolNames allow PatchMode.setup =
      applyToolToggles tools toolNames allow PatchMode.rescan :=
  applyToolToggles_setup_eq_rescan tools toolNames allow

/-- C9: Legacy merge is recursive and target-preferring: per key, the
current-format (target) value wins on conflicts, legacy-only keys are carried
over, object-object conflicts recurse through `deepMergePreferTarget`, and
non-object conflicts keep the target's value. -/
theorem c9_legacy_merge_target_preferring (legacy jsonc : Obj) (k : String) :
    olookup (mergeLegacyIntoJsonc (JValue.vObj legacy) (JValue.vObj jsonc)) k =
      match olookup jsonc k, olookup legacy k with
      | some (JValue.vObj to2), some (JValue.vObj so2) =>
        some (deepMergePreferTarget (JValue.vObj to2) (JValue.vObj so2))
      | some tv, some _ => some tv
      | some tv, none => some tv
      | none, some sv => some sv
      | none, none => none := by
  rw [show mergeLegacyIntoJsonc (JValue.vObj legacy) (JValue.vObj jsonc) =
    mergeObjs jsonc legacy from rfl, mergeObjs_lookup]
  cases ht : olookup jsonc k with
  | none => cases hs : olookup legacy k <;> rfl
  | some tv =>
    cases hs : olookup legacy k with
    | none => cases tv <;> rfl
    | some sv => cases tv <;> cases sv <;> rfl

def c10Doc : Obj := [("agent", JValue.vObj [("foundry", JValue.vObj
  [("description", JValue.vStr "my service docs")])])]

/-- C10: Rescan never annotates a custom agent description: when a managed
agent's description contains no generated-note prefix and does not trim to the
built-in default, `patchConfigForRescan` leaves it exactly unchanged, while
`patchConfigForSetup` rewrites it to the stripped base joined with a fresh
generated note. -/
theorem c10_rescan_never_annotates_custom_description (input : Obj) (url : String)
    (tn : List String) (profile : String) (la fa : List String) (agentName s : String)
    (hname : agentName = "foundry-librarian" ∨ agentName = "foundry")
    (h : agentField input agentName "description" = some (JValue.vStr s))
    (h1 : containsSub s genNotePfx = false)
    (h2 : trimS s ≠ defaultDescription agentName) :
    agentField (patchConfigForRescan input tn profile la fa).data agentName "description" =
      some (JValue.vStr s) ∧
    agentField (patchConfigForSetup input url tn profile la fa).data agentName "description" =
      some (JValue.vStr (joinNote (stripGeneratedNote s) profile)) := by
  rcases hname with hn | hn
  · subst hn
    constructor
    · rw [agentField, rescan_agentObj_lib]
      apply patchedAgent_descr_keep_rescan _ _ _ _ _ _ _ h1 h2
      rw [rescanPre_agentObj]
      exact h
    · rw [agentField, setup_agentObj_lib]
      apply patchedAgent_descr_setup
      rw [setupPre_agentObj]
      exact h
  · subst hn
    constructor
    · rw [agentField, rescan_agentObj_fdy]
      apply patchedAgent_descr_keep_rescan _ _ _ _ _ _ _ h1 h2
      rw [rescan_agentObj_fdy_pre]
      exact h
    · rw [agentField, setup_agentObj_fdy]
      apply patchedAgent_descr_setup
      rw [setup_agentObj_fdy_pre]
      exact h

theorem c10_witness :
    (("foundry" : String) = "foundry-librarian" ∨ ("foundry" : String) = "foundry") ∧
    agentField c10Doc "foundry" "description" = some (JValue.vStr "my service docs") ∧
    containsSub "my service docs" genNotePfx = false ∧
    trimS "my service docs" ≠ defaultDescription "foundry" ∧
    agentField (patchConfigForRescan c10Doc ["t"] "prof" [] []).data "foundry" "description" =
      some (JValue.vStr "my service docs") ∧
    agentField (patchConfigForSetup c10Doc "u" ["t"] "prof" [] []).data "foundry"
      "description" = some (JValue.vStr
        (joinNote (stripGeneratedNote "my service docs") "prof")) := by
  have h := c10_rescan_never_annotates_custom_description c10Doc "u" ["t"] "prof" [] []
    "foundry" "my service docs" (Or.inr rfl) rfl rfl (by decide)
  exact ⟨Or.inr rfl, rfl, rfl, by decide, h.1, h.2⟩
